import Mathlib

/-!
Verification development for a terminal assistant that turns natural-language
requests into file/shell operations.  We give a shallow embedding of its
plan-parsing layer (`core/planner.py`), plan/action validation
(`models/plan.py`, `models/action.py`), the executor's command deny-list and
dispatch loop (`core/executor.py`), and the tool layer (`core/tools.py`),
and prove the stated properties about them.

Python strings are modelled as `List Char`; Python `int` as `Int`; Python
floats (similarity scores) as `ℚ` (exact rational arithmetic in place of
IEEE doubles); JSON values and tool-result dictionaries as the inductive
`Val`.  Standard-library primitives that the repository merely calls
(`json.loads`, `Path.cwd`, `subprocess.run`, ...) are abstracted as
parameters/oracle fields; everything the repository itself computes is
embedded concretely.
-/

namespace OsAssist

/-- Python strings are modelled as lists of characters. -/
abbrev Str := List Char

/-- Whitespace recognised by Python's `str.strip` (ASCII subset). -/
def isSpaceChar (c : Char) : Bool :=
  c == ' ' || c == '\t' || c == '\n' || c == '\r' || c == Char.ofNat 11 || c == Char.ofNat 12

/-- Python `s.strip()`. -/
def pyStrip (s : Str) : Str :=
  ((s.dropWhile isSpaceChar).reverse.dropWhile isSpaceChar).reverse

/-- ASCII lower-casing of one character, as done by `str.lower` on ASCII input. -/
def lowerChar (c : Char) : Char :=
  if 'A' ≤ c ∧ c ≤ 'Z' then Char.ofNat (c.toNat + 32) else c

/-- Python `s.lower()` (ASCII fragment of Unicode lower-casing). -/
def lowerStr (s : Str) : Str := s.map lowerChar

/-- ASCII upper-casing of one character. -/
def upperChar (c : Char) : Char :=
  if 'a' ≤ c ∧ c ≤ 'z' then Char.ofNat (c.toNat - 32) else c

/-- Python `s.upper()` (ASCII fragment). -/
def upperStr (s : Str) : Str := s.map upperChar

/-- `strStarts s p` holds when `p` is an initial segment of `s`
(Python `s.startswith(p)`). -/
def strStarts : Str → Str → Bool
  | _, [] => true
  | [], _ :: _ => false
  | c :: s, d :: p => c == d && strStarts s p

/-- Python `sub in s` (substring containment). -/
def pyIn (sub : Str) : Str → Bool
  | [] => sub.isEmpty
  | s@(_ :: t) => strStarts s sub || pyIn sub t

/-- Index of the first occurrence of `sub` in `s` (offset accumulator `i`). -/
def pyFindAux (sub : Str) : Str → Nat → Option Nat
  | [], i => if sub.isEmpty then some i else none
  | s@(_ :: t), i => if strStarts s sub then some i else pyFindAux sub t (i + 1)

/-- Python `s.find(sub, start)`, returning `none` for `-1`. -/
def pyFindFrom (s sub : Str) (start : Nat) : Option Nat :=
  (pyFindAux sub (s.drop start) 0).map (· + start)

/-- Python `s.rstrip()`. -/
def pyRstrip (s : Str) : Str :=
  (s.reverse.dropWhile isSpaceChar).reverse

/-- Helper for `pySplitlines`: accumulate the current (reversed) line. -/
def splitlinesGo : Str → Str → List Str
  | cur, [] => if cur.isEmpty then [] else [cur.reverse]
  | cur, '\r' :: '\n' :: rest => cur.reverse :: splitlinesGo [] rest
  | cur, '\r' :: rest => cur.reverse :: splitlinesGo [] rest
  | cur, '\n' :: rest => cur.reverse :: splitlinesGo [] rest
  | cur, c :: rest => splitlinesGo (c :: cur) rest

/-- Python `s.splitlines()` (for the `\n`, `\r`, `\r\n` terminators). -/
def pySplitlines (s : Str) : List Str := splitlinesGo [] s

/-- Python `"\n".join(lines)`. -/
def joinNl (lines : List Str) : Str := List.intercalate ['\n'] lines

/-- Python list/bytes slicing `l[:m]` for an `int` bound `m`
(a negative bound drops `-m` elements from the end). -/
def pyListSlice {α : Type} (l : List α) (m : Int) : List α :=
  if 0 ≤ m then l.take m.toNat else l.take (l.length - (-m).toNat)

/-- Values produced by `json.loads` and carried in tool-result dictionaries.
`int` holds Python integers, `num` holds similarity scores (floats, modelled
as exact rationals). -/
inductive Val : Type where
  | null : Val
  | bool (b : Bool) : Val
  | int (n : Int) : Val
  | num (q : ℚ) : Val
  | str (s : Str) : Val
  | list (xs : List Val) : Val
  | dict (kvs : List (Str × Val)) : Val

/-- Dictionary lookup (`d.get(k)`); keys coming from `json.loads` are unique. -/
def dlookup : List (Str × Val) → Str → Option Val
  | [], _ => none
  | (k', v) :: rest, k => if k' = k then some v else dlookup rest k

/-- Python truthiness of a `Val` (`if not x:` tests). -/
def pyTruthy : Val → Bool
  | .null => false
  | .bool b => b
  | .int n => n != 0
  | .num q => q != 0
  | .str s => !s.isEmpty
  | .list xs => !xs.isEmpty
  | .dict kvs => !kvs.isEmpty

/-! ### models/action.py and models/plan.py: pydantic validation -/

/-- The validated `Action` model: a tool name and an argument map. -/
structure ActionM : Type where
  tool : Str
  args : List (Str × Val)

/-- The validated `Plan` model: free-text description and ordered actions. -/
structure PlanM : Type where
  plan : Str
  actions : List ActionM

/-- Default for the `plan` field. -/
def PLAN_DEFAULT : Str := "No high-level plan provided.".toList

/-- `Action.model_validate` on a JSON value: requires a JSON object with a
string `"tool"`; `"args"`, when present, must be an object (default `{}`).
Extra keys are ignored; pydantic v2 performs no string coercion here. -/
def validateAction : Val → Option ActionM
  | .dict kvs =>
    match dlookup kvs "tool".toList with
    | some (.str t) =>
      match dlookup kvs "args".toList with
      | none => some ⟨t, []⟩
      | some (.dict a) => some ⟨t, a⟩
      | some _ => none
    | _ => none
  | _ => none

/-- Validate every element of the actions list, failing if any fails. -/
def traverseActs : List Val → Option (List ActionM)
  | [] => some []
  | v :: rest =>
    match validateAction v, traverseActs rest with
    | some a, some as_ => some (a :: as_)
    | _, _ => none

/-- Validate the `"actions"` field: must be a JSON list whose members all
validate as actions. -/
def validateActions : Val → Option (List ActionM)
  | .list xs => traverseActs xs
  | _ => none

/-- Validation of the `plan` field: absent means the default, present must
be a string. -/
def planFieldVal : Option Val → Option Str
  | none => some PLAN_DEFAULT
  | some (.str s) => some s
  | some _ => none

/-- Validation of the `actions` field: absent means `[]`, present must be a
list of valid actions. -/
def actionsFieldVal : Option Val → Option (List ActionM)
  | none => some []
  | some v => validateActions v

/-- `Plan.model_validate` on a JSON value: requires a JSON object; `"plan"`,
when present, must be a string (default `PLAN_DEFAULT`); `"actions"`, when
present, must be a list of valid actions (default `[]`). -/
def validatePlan : Val → Option PlanM
  | .dict kvs =>
    match planFieldVal (dlookup kvs "plan".toList),
        actionsFieldVal (dlookup kvs "actions".toList) with
    | some p, some a => some ⟨p, a⟩
    | _, _ => none
  | _ => none

/-! ### core/planner.py -/

/-- The markdown code fence delimiter. -/
def FENCE : Str := "```".toList

/-- Line-by-line fallback of `_extract_json`: collect the lines strictly
between the first and second fence lines. -/
def collectInner : List Str → Bool → List Str
  | [], _ => []
  | l :: rest, inF =>
    if strStarts (pyStrip l) FENCE then
      if inF then [] else collectInner rest true
    else if inF then l :: collectInner rest true
    else collectInner rest inF

/-- The fallback branch of `_extract_json`: join the lines found between
fences, strip, and parse if non-empty. -/
def fence_fallback (jsonLoads : Str → Option Val) (r : Str) : Option Val :=
  let inner := collectInner (pySplitlines r) false
  let joined := pyStrip (joinNl inner)
  if joined.isEmpty then none else jsonLoads joined

/-- The fence-stripping part of `_extract_json` (everything after the direct
parse has failed and a fence was seen): extract the text between the first
fence's end-of-line and the closing fence and parse it; if the opening fence
has no newline after it, return `None`; otherwise fall back to the
line-by-line scan. -/
def fencedParse (jsonLoads : Str → Option Val) (r : Str) : Option Val :=
  match pyFindFrom r FENCE 0 with
  | none => none
  | some startIdx =>
    match pyFindFrom r ['\n'] startIdx with
    | none => none
    | some nl =>
      match
        (match pyFindFrom r FENCE nl with
          | none => none
          | some endIdx => jsonLoads (pyStrip ((r.drop (nl + 1)).take (endIdx - (nl + 1))))) with
      | some j => some j
      | none => fence_fallback jsonLoads r

/-- `_extract_json`: strip, reject empty input, try a direct parse, then try
the fence-stripping strategies. `jsonLoads` abstracts `json.loads` (returning
`none` on `JSONDecodeError`). -/
def extract_json (jsonLoads : Str → Option Val) (raw : Str) : Option Val :=
  let r := pyStrip raw
  if r.isEmpty then none
  else
    match jsonLoads r with
    | some j => some j
    | none => if pyIn FENCE r then fencedParse jsonLoads r else none

/-- `get_action_plan` on a given model-output string: extract JSON and
validate it as a `Plan`; a `ValidationError` yields `None`. -/
def get_action_plan (jsonLoads : Str → Option Val) (raw : Str) : Option PlanM :=
  match extract_json jsonLoads raw with
  | none => none
  | some data => validatePlan data

/-! ### core/executor.py: the command deny-list -/

/-- The fork-bomb pattern `:(){ :|:& };:` (built character by character). -/
def forkBomb : Str :=
  [':', '(', ')', Char.ofNat 123, ' ', ':', '|', ':', '&', ' ', Char.ofNat 125, ';', ':']

/-- `DANGEROUS_SUBSTRINGS` from the executor. -/
def DANGEROUS_SUBSTRINGS : List Str :=
  ["rm -rf /".toList, "mkfs".toList, forkBomb]

/-- `_is_command_safe`: no deny-list substring occurs in the lower-cased
command. -/
def is_command_safe (command : Str) : Bool :=
  DANGEROUS_SUBSTRINGS.all (fun pat => !(pyIn pat (lowerStr command)))

/-- What `_exec_run_shell` does with the extracted `command` string. -/
inductive ShellDispatch : Type where
  | skippedMissing : ShellDispatch
  | blocked : ShellDispatch
  | invoked (cmd : Str) : ShellDispatch

/-- `_exec_run_shell` after extracting the `command` argument: skip when it
is empty, block when `_is_command_safe` rejects it, otherwise invoke
`tools.run_shell` on it. -/
def exec_run_shell_dispatch (command : Str) : ShellDispatch :=
  if command.isEmpty then .skippedMissing
  else if !(is_command_safe command) then .blocked
  else .invoked command

/-! ### difflib.SequenceMatcher (the fragment used by `_fuzzy_match_score`)

`SequenceMatcher(None, a, b).ratio()` is `2*M/T` where `M` is the total size
of the matching blocks found by repeatedly taking the longest matching block
(earliest in `a`, then earliest in `b`, on ties) and recursing on the pieces
to its left and right, and `T = len(a) + len(b)` (`1.0` when `T = 0`).
The model omits the `autojunk` heuristic, which only alters which blocks are
found when `len(b) >= 200`. -/

/-- Length of the longest common initial segment of two strings. -/
def cpl : Str → Str → Nat
  | a :: as_, b :: bs => if a == b then cpl as_ bs + 1 else 0
  | _, _ => 0

/-- `find_longest_match` over whole strings: the longest matching block
`(i, j, k)` with ties broken towards the smallest `i`, then the smallest
`j`; `(0, 0, 0)` when there is no match. -/
def flm (a b : Str) : Nat × Nat × Nat :=
  (List.range a.length).foldl
    (fun best i =>
      (List.range b.length).foldl
        (fun best j =>
          let k := cpl (a.drop i) (b.drop j)
          if best.2.2 < k then (i, j, k) else best)
        best)
    (0, 0, 0)

/-- Total size of the matching blocks, by fuelled recursion (the fuel
`a.length + 1` always suffices). -/
def mtGo : Nat → Str → Str → Nat
  | 0, _, _ => 0
  | fuel + 1, a, b =>
    match flm a b with
    | (i, j, k) =>
      if k = 0 then 0
      else mtGo fuel (a.take i) (b.take j) + k + mtGo fuel (a.drop (i + k)) (b.drop (j + k))

/-- `M`: the total number of matched characters. -/
def matchTotal (a b : Str) : Nat := mtGo (a.length + 1) a b

/-- `SequenceMatcher(None, a, b).ratio()`. -/
def ratioQ (a b : Str) : ℚ :=
  if a.length + b.length = 0 then 1
  else 2 * (matchTotal a b : ℚ) / ((a.length : ℚ) + (b.length : ℚ))

/-! ### pathlib name/stem (the fragment used on file names) -/

/-- `PurePath(s).name`: last path component, with empty and `.` components
dropped. -/
def pathFinalName (s : Str) : Str :=
  let comps := (s.splitOn '/').filter (fun c => !(c.isEmpty || c == ['.']))
  match comps.getLast? with
  | some n => n
  | none => []

/-- Index of the last occurrence of `c` in `s` (Python `s.rfind(c)`). -/
def rfindChar (s : Str) (c : Char) : Option Nat :=
  match s.reverse.findIdx? (· == c) with
  | some k => some (s.length - 1 - k)
  | none => none

/-- `PurePath(s).stem`: the final component without its suffix; a dot that
is leading or trailing does not start a suffix. -/
def pyStem (s : Str) : Str :=
  let name := pathFinalName s
  match rfindChar name '.' with
  | some i => if 0 < i ∧ i < name.length - 1 then name.take i else name
  | none => name

/-- `PurePath(s).suffix`. -/
def pySuffix (s : Str) : Str :=
  let name := pathFinalName s
  match rfindChar name '.' with
  | some i => if 0 < i ∧ i < name.length - 1 then name.drop i else []
  | none => []

/-- Python `s.endswith(".")`. -/
def lastIsDot (s : Str) : Bool := s.getLast? == some '.'

/-- `_fuzzy_match_score(query, target)` from `core/tools.py`. -/
def fuzzy_match_score (query target : Str) : ℚ :=
  let ql := lowerStr query
  let tl := lowerStr target
  if ql = tl then 1
  else if pyIn ql tl = true then (if strStarts tl ql then 0.95 else 0.85)
  else
    let queryHasExt := pyIn ['.'] query && !(lastIsDot query)
    let tstem := lowerStr (pyStem target)
    if queryHasExt = false ∧ ql = tstem then 0.9
    else if queryHasExt = false ∧ pyIn ql tstem = true then
      (if strStarts tstem ql then 0.8 else 0.7)
    else max (ratioQ ql tl) (ratioQ ql tstem * 1.05)

/-! ### core/executor.py: the dispatch loop

`execute_plan` is modelled as a trace of events.  The per-tool wrapper
bodies (`_exec_read_file`, ...) are abstracted as a parameter `wrappers`
mapping the action to the events its wrapper emits; the loop structure,
the confirmation prompt and the dispatch-by-name chain are concrete. -/

/-- Observable events of one `execute_plan` run. -/
inductive ExecEvent : Type where
  | showPlanInfo : ExecEvent
  | askProceed : ExecEvent
  | actionHeader (tool : Str) : ExecEvent
  | toolCall (tool : Str) : ExecEvent
  | info (msg : Str) : ExecEvent

/-- The tool names `execute_plan` dispatches on. -/
def knownTools : List Str :=
  ["run_shell", "read_file", "write_file", "find_item", "summarize_file",
   "list_directory", "search_content", "get_file_info", "copy_file",
   "move_file", "compare_files", "extract_archive"].map String.toList

/-- The `elif` chain of `execute_plan`: a known tool name runs its wrapper,
anything else prints an unknown-tool warning. -/
def dispatch_action (wrappers : Str → ActionM → List ExecEvent) (a : ActionM) : List ExecEvent :=
  if a.tool ∈ knownTools then wrappers a.tool a
  else [.info ("Unknown tool".toList ++ a.tool)]

/-- `execute_plan`: show the plan, ask for confirmation, and only when the
user accepted run the actions in list order. -/
def execute_plan (wrappers : Str → ActionM → List ExecEvent) (plan : PlanM)
    (proceed : Bool) : List ExecEvent :=
  .showPlanInfo :: .askProceed ::
    (if proceed = false then []
     else (plan.actions.map (fun a => .actionHeader a.tool :: dispatch_action wrappers a)).flatten)

/-! ### core/tools.py: filesystem model -/

/-- A normalised filesystem path as a list of components. -/
abbrev PathC := List Str

/-- A filesystem entry: a regular file with its bytes, or a directory. -/
inductive Entry : Type where
  | file (data : List Nat) : Entry
  | dir : Entry

/-- A filesystem: association of paths to entries (first match wins). -/
abbrev FS := List (PathC × Entry)

/-- Look a path up in the filesystem. -/
def fsFind : FS → PathC → Option Entry
  | [], _ => none
  | (q, e) :: rest, p => if q = p then some e else fsFind rest p

/-- `Path.exists()`. -/
def fsExists (fs : FS) (p : PathC) : Bool := (fsFind fs p).isSome

/-- `Path.is_dir()`. -/
def fsIsDir (fs : FS) (p : PathC) : Bool :=
  match fsFind fs p with
  | some .dir => true
  | _ => false

/-- `Path.is_file()`. -/
def fsIsFile (fs : FS) (p : PathC) : Bool :=
  match fsFind fs p with
  | some (.file _) => true
  | _ => false

/-- Replace (or create) the entry at `p`. -/
def fsSet (fs : FS) (p : PathC) (e : Entry) : FS :=
  (p, e) :: fs.filter (fun kv => ¬ kv.1 = p)

/-- Delete the entry at `p`. -/
def fsRemove (fs : FS) (p : PathC) : FS :=
  fs.filter (fun kv => ¬ kv.1 = p)

/-- `Path.parent` on components. -/
def pathParent (p : PathC) : PathC := p.dropLast

/-- `Path.name` on components. -/
def pathCName (p : PathC) : Str := (p.getLast?).getD []

/-- All non-empty prefixes of a path, shortest first. -/
def pathPrefixes (p : PathC) : List PathC :=
  (List.range p.length).map (fun i => p.take (i + 1))

/-- The byte content of a regular file (`[]` when absent or a directory). -/
def fsFileData (fs : FS) (p : PathC) : List Nat :=
  match fsFind fs p with
  | some (.file d) => d
  | _ => []

/-- Python exceptions, with their `str(e)` message; `FileNotFoundError` and
`UnicodeDecodeError` are distinguished because the tools catch them
specially. -/
inductive PyErr : Type where
  | fileNotFound (msg : Str) : PyErr
  | unicode (msg : Str) : PyErr
  | err (msg : Str) : PyErr

/-- `str(e)`. -/
def errMsg : PyErr → Str
  | .fileNotFound m => m
  | .unicode m => m
  | .err m => m

/-- `Path.read_bytes()` against the filesystem model. -/
def fsReadBytes (fs : FS) (p : PathC) : Except PyErr (List Nat) :=
  match fsFind fs p with
  | none => .error (.fileNotFound "No such file or directory".toList)
  | some .dir => .error (.err "Is a directory".toList)
  | some (.file d) => .ok d

/-- `d.mkdir(parents=True, exist_ok=True)`: fails when some prefix of `d`
exists as a regular file, otherwise creates the missing directories. -/
def mkdirParents (fs : FS) (d : PathC) : Except PyErr FS :=
  if (pathPrefixes d).any (fun q => fsIsFile fs q) then
    .error (.err "Not a directory".toList)
  else
    .ok ((pathPrefixes d).foldl (fun acc q => if fsExists acc q then acc else fsSet acc q .dir) fs)

/-- Open a file for writing (`'w'`) or appending (`'a'`) and write `bytes`. -/
def fsOpenWrite (fs : FS) (p : PathC) (bytes : List Nat) (append : Bool) : Except PyErr FS :=
  if fsIsDir fs p then .error (.err "Is a directory".toList)
  else if ¬ (pathParent p = [] ∨ fsIsDir fs (pathParent p) = true) then
    .error (.err "Not a directory".toList)
  else
    .ok (fsSet fs p (.file (if append then fsFileData fs p ++ bytes else bytes)))

/-- UTF-8 encoding of one character. -/
def utf8Bytes (c : Char) : List Nat :=
  let n := c.toNat
  if n < 128 then [n]
  else if n < 2048 then [192 + n / 64, 128 + n % 64]
  else if n < 65536 then [224 + n / 4096, 128 + (n / 64) % 64, 128 + n % 64]
  else [240 + n / 262144, 128 + (n / 4096) % 64, 128 + (n / 64) % 64, 128 + n % 64]

/-- UTF-8 encoding of a string (Python `s.encode("utf-8")`). -/
def utf8Enc (s : Str) : List Nat := (s.map utf8Bytes).flatten

/-- One item yielded by `root.rglob("*")`, with the data the tool reads off
it (`is_dir`/`st_size` already reflect the inner `try/except OSError`). -/
structure ScanItem : Type where
  name : Str
  pathStr : Str
  isDir : Bool
  size : Option Int

/-- Metadata returned by `Path.stat()` as `get_file_info` consumes it
(times already `strftime`-formatted, permissions already in octal). -/
structure StatInfo : Type where
  size : Int
  created : Str
  modified : Str
  accessed : Str
  perms : Str

/-- The OS/stdlib oracle: every primitive the tools call but do not
implement.  Fallible primitives return `Except PyErr`. -/
structure ToolEnv : Type where
  normalize : Str → PathC
  showPath : PathC → Str
  subprocessRun : Str → Except PyErr (Int × Str × Str)
  decode : List Nat → Str
  cwd : Except PyErr PathC
  home : Except PyErr PathC
  existsAt : PathC → Bool
  resolve : PathC → PathC
  scan : PathC → List ScanItem
  existsStr : Str → Bool
  statSizeStr : Str → Except PyErr Int
  readBytesStr : Str → Except PyErr (List Nat)
  hasPdf : Bool
  pdfPages : Str → Except PyErr (List (Option Str))
  mtimeAt : PathC → Int
  statFails : PathC → Bool
  fnmatchB : Str → Str → Bool
  glob : PathC → Option Str → List PathC
  readLines : PathC → Except PyErr (List Str)
  relStr : PathC → PathC → Str
  fmtComma : Int → Str
  statInfo : PathC → Except PyErr StatInfo
  unifiedDiff : List Str → List Str → Str → Str → Int → List Str
  zipExtract : FS → PathC → PathC → Except PyErr (FS × List Str)
  tarExtract : FS → PathC → PathC → Except PyErr (FS × List Str)

/-- Result-dictionary key. -/
def okKey : Str := "ok".toList

/-- Result-dictionary key. -/
def errKey : Str := "error".toList

/-- `{"ok": False, "error": msg}`. -/
def mkErrDict (msg : Str) : Val :=
  .dict [(okKey, .bool false), (errKey, .str msg)]

/-! ### core/tools.py: the tools -/

/-- `run_shell`: run the command through `subprocess.run`, catching any
exception. -/
def run_shell (env : ToolEnv) (command : Str) : Val :=
  match env.subprocessRun command with
  | .ok (rc, out, err) =>
    .dict [(okKey, .bool true), ("returncode".toList, .int rc),
           ("stdout".toList, .str out), ("stderr".toList, .str err)]
  | .error e => mkErrDict (errMsg e)

/-- `read_file`: read the raw bytes, keep the first `max_bytes`, decode with
replacement, and report whether the file was longer. -/
def read_file (env : ToolEnv) (fs : FS) (path : Str) (max_bytes : Int) : Val :=
  let p := env.normalize path
  match fsReadBytes fs p with
  | .error (.fileNotFound _) => mkErrDict ("file not found: ".toList ++ path)
  | .error e => mkErrDict (errMsg e)
  | .ok data =>
    .dict [(okKey, .bool true), ("path".toList, .str (env.showPath p)),
           ("content".toList, .str (env.decode (pyListSlice data max_bytes))),
           ("truncated".toList, .bool (decide ((data.length : Int) > max_bytes)))]

/-- `write_file`: normalise the mode (anything but `"append"` means
overwrite), create the parent directory when missing, record the previous
state, write, and report sizes. -/
def write_file (env : ToolEnv) (fs : FS) (path content mode : Str) : Val × FS :=
  let p := env.normalize path
  let isAppend := mode = "append".toList
  let modeStr : Str := if isAppend then "append".toList else "overwrite".toList
  match (if fsExists fs (pathParent p) then (.ok fs : Except PyErr FS)
         else mkdirParents fs (pathParent p)) with
  | .error e =>
    (mkErrDict ("could not create parent directory ".toList ++
      env.showPath (pathParent p) ++ ": ".toList ++ errMsg e), fs)
  | .ok fs1 =>
    let beforeExists := fsExists fs1 p
    let beforeSize : Int := (fsFileData fs1 p).length
    match fsOpenWrite fs1 p (utf8Enc content) isAppend with
    | .error e => (mkErrDict (errMsg e), fs1)
    | .ok fs2 =>
      let afterSize : Int := (fsFileData fs2 p).length
      (.dict [(okKey, .bool true), ("path".toList, .str (env.showPath p)),
              ("mode".toList, .str modeStr),
              ("existed_before".toList, .bool beforeExists),
              ("bytes_before".toList, .int beforeSize),
              ("bytes_after".toList, .int afterSize)], fs2)

/-- The destination `copy_file`/`move_file` actually write to: when the
given destination exists and is a directory, the source's filename is
appended. -/
def resolvedDest (env : ToolEnv) (fs : FS) (source destination : Str) : PathC :=
  let src := env.normalize source
  let dst := env.normalize destination
  if fsExists fs dst ∧ fsIsDir fs dst = true then dst ++ [pathCName src] else dst

/-- `copy_file`: refuse missing or directory sources and existing
destinations, create the destination's parent, and copy the bytes. -/
def copy_file (env : ToolEnv) (fs : FS) (source destination : Str) : Val × FS :=
  let src := env.normalize source
  if ¬ fsExists fs src then (mkErrDict ("Source file not found: ".toList ++ source), fs)
  else if fsIsDir fs src then
    (mkErrDict ("Source is a directory, not a file: ".toList ++ source), fs)
  else
    let dst := resolvedDest env fs source destination
    if fsExists fs dst then
      (mkErrDict ("Destination already exists: ".toList ++ env.showPath dst ++
        ". Use move_file to overwrite.".toList), fs)
    else
      match mkdirParents fs (pathParent dst) with
      | .error e => (mkErrDict ("Error copying file: ".toList ++ errMsg e), fs)
      | .ok fs1 =>
        match fsFind fs1 src with
        | some (.file d) =>
          (.dict [(okKey, .bool true), ("source".toList, .str (env.showPath src)),
                  ("destination".toList, .str (env.showPath dst)),
                  ("size".toList, .int d.length),
                  ("message".toList, .str "File copied successfully".toList)],
           fsSet fs1 dst (.file d))
        | _ => (mkErrDict ("Error copying file: read failed".toList), fs1)

/-- `move_file`: like `copy_file` but without the existing-destination
guard; `shutil.move` replaces the destination. -/
def move_file (env : ToolEnv) (fs : FS) (source destination : Str) : Val × FS :=
  let src := env.normalize source
  if ¬ fsExists fs src then (mkErrDict ("Source file not found: ".toList ++ source), fs)
  else if fsIsDir fs src then
    (mkErrDict ("Source is a directory, not a file: ".toList ++ source), fs)
  else
    let dst := resolvedDest env fs source destination
    match mkdirParents fs (pathParent dst) with
    | .error e => (mkErrDict ("Error moving file: ".toList ++ errMsg e), fs)
    | .ok fs1 =>
      match fsFind fs1 src with
      | some (.file d) =>
        (.dict [(okKey, .bool true), ("source".toList, .str (env.showPath src)),
                ("destination".toList, .str (env.showPath dst)),
                ("operation".toList, .str (if pathParent src = pathParent dst
                  then "renamed".toList else "moved".toList)),
                ("message".toList, .str "File moved successfully".toList)],
         fsSet (fsRemove fs1 src) dst (.file d))
      | _ => (mkErrDict ("Error moving file: read failed".toList), fs1)

/-- Decimal rendering of an integer (for f-string interpolation). -/
def intToStr (n : Int) : Str :=
  if n < 0 then '-' :: Nat.toDigits 10 (-n).toNat else Nat.toDigits 10 n.toNat

/-- `d.get(k)` on a `Val` known to be a dictionary. -/
def vGet (v : Val) (k : Str) : Option Val :=
  match v with
  | .dict kvs => dlookup kvs k
  | _ => none

/-- `d.get(k, default)`. -/
def vGetD (v : Val) (k : Str) (dflt : Val) : Val := (vGet v k).getD dflt

/-! ### core/tools.py: `find_item` -/

/-- One candidate row of `find_item`'s result. -/
structure Cand : Type where
  path : Str
  root : Str
  isDir : Bool
  size : Option Int
  score : ℚ

/-- The candidate dictionary appended for one scanned path. -/
def candToVal (c : Cand) : Val :=
  .dict [("path".toList, .str c.path), ("root".toList, .str c.root),
         ("is_dir".toList, .bool c.isDir),
         ("size".toList, match c.size with
           | some n => .int n
           | none => .null),
         ("match_score".toList, .num c.score)]

/-- The root-deduplication loop: resolve each root and drop repeats. -/
def dedupResolve (resolve : PathC → PathC) : List PathC → List PathC → List PathC
  | _, [] => []
  | seen, r :: rest =>
    let rp := resolve r
    if rp ∈ seen then dedupResolve resolve seen rest
    else rp :: dedupResolve resolve (rp :: seen) rest

/-- The search roots: the working directory followed by those of
`~/Downloads`, `~/Documents`, `~/Desktop` that exist, resolved and
deduplicated. -/
def findRoots (env : ToolEnv) (cwd home : PathC) : List PathC :=
  dedupResolve env.resolve []
    (cwd :: (["Downloads", "Documents", "Desktop"].map String.toList).filterMap
      (fun s => if env.existsAt (home ++ [s]) then some (home ++ [s]) else none))

/-- Scan every root, score every yielded path, and keep the ones at or
above the threshold. -/
def findCandidates (env : ToolEnv) (query : Str) (thr : ℚ) (roots : List PathC) : List Cand :=
  (roots.map (fun root =>
    (env.scan root).filterMap (fun it =>
      let score := fuzzy_match_score query it.name
      if thr ≤ score then
        some ⟨it.pathStr, env.showPath root, it.isDir, it.size, score⟩
      else none))).flatten

/-- Sort the candidates by score, best first, and keep `max_results`. -/
def findResults (env : ToolEnv) (query : Str) (max_results : Int) (thr : ℚ)
    (roots : List PathC) : List Cand :=
  pyListSlice
    (List.insertionSort (fun c d : Cand => d.score ≤ c.score)
      (findCandidates env query thr roots))
    max_results

/-- `find_item`.  `Path.cwd()` and `Path.home()` are called outside any
`try`, so their failures propagate (`Except.error`). -/
def find_item (env : ToolEnv) (name : Str) (max_results : Int)
    (fuzzy_threshold : ℚ) : Except PyErr Val :=
  let query := pyStrip name
  if query.isEmpty then .ok (mkErrDict "empty name for find_item".toList)
  else
    match env.cwd with
    | .error e => .error e
    | .ok cwd =>
      match env.home with
      | .error e => .error e
      | .ok home =>
        let roots := findRoots env cwd home
        .ok (.dict [(okKey, .bool true), ("query".toList, .str query),
          ("roots".toList, .list (roots.map (fun r => .str (env.showPath r)))),
          ("results".toList,
            .list ((findResults env query max_results fuzzy_threshold roots).map candToVal)),
          ("fuzzy_threshold".toList, .num fuzzy_threshold)])

/-! ### core/tools.py: `summarize_file` -/

/-- The extensions accepted as text files. -/
def text_extensions : List Str :=
  [".txt", ".md", ".py", ".js", ".jsx", ".ts", ".tsx", ".json", ".xml",
   ".html", ".css", ".scss", ".yaml", ".yml", ".toml", ".ini", ".cfg",
   ".conf", ".sh", ".bash", ".zsh", ".fish", ".java", ".c", ".cpp", ".h",
   ".hpp", ".rs", ".go", ".rb", ".php", ".swift", ".kt", ".r", ".sql",
   ".log", ".csv", ".rst", ".tex"].map String.toList

/-- Collect PDF page texts until at least `max_bytes` characters have been
accumulated. -/
def collectPdfParts : List (Option Str) → Int → Nat → List Str
  | [], _, _ => []
  | none :: rest, maxB, total => collectPdfParts rest maxB total
  | some txt :: rest, maxB, total =>
    let total' := total + txt.length
    if (total' : Int) ≥ maxB then [txt]
    else txt :: collectPdfParts rest maxB total'

/-- An ASCII apostrophe (kept out of string literals). -/
def quoteChar : Str := [Char.ofNat 39]

/-- The `.pdf` branch of `summarize_file` (inside its own `try`). -/
def summarizePdf (env : ToolEnv) (name file_path : Str) (max_bytes : Int)
    (matchScore : Val) (fileCount : Nat) : Val :=
  if ¬ env.existsStr file_path then mkErrDict ("File not found: ".toList ++ file_path)
  else
    match env.statSizeStr file_path with
    | .error e => mkErrDict ("Error reading PDF: ".toList ++ errMsg e)
    | .ok fsize =>
      match env.pdfPages file_path with
      | .error e => mkErrDict ("Error reading PDF: ".toList ++ errMsg e)
      | .ok pages =>
        let parts := collectPdfParts pages max_bytes 0
        let content := List.intercalate "\n\n".toList parts
        let contentT :=
          if (content.length : Int) > max_bytes then (pyListSlice content max_bytes, true)
          else (content, decide (pages.length > parts.length))
        if (pyStrip contentT.1).isEmpty then
          mkErrDict "Could not extract text from PDF. It may be image-based or encrypted.".toList
        else
          .dict [(okKey, .bool true), ("query".toList, .str name),
            ("file_path".toList, .str file_path), ("file_size".toList, .int fsize),
            ("match_score".toList, matchScore),
            ("content_preview".toList, .str contentT.1),
            ("truncated".toList, .bool contentT.2),
            ("multiple_matches".toList, .bool (decide (1 < fileCount))),
            ("match_count".toList, .int fileCount),
            ("file_type".toList, .str "pdf".toList),
            ("page_count".toList, .int pages.length)]

/-- The plain-text branch of `summarize_file` (inside its own `try`). -/
def summarizeText (env : ToolEnv) (name file_path : Str) (max_bytes : Int)
    (matchScore : Val) (fileCount : Nat) : Val :=
  if ¬ env.existsStr file_path then mkErrDict ("File not found: ".toList ++ file_path)
  else
    match env.statSizeStr file_path with
    | .error (.fileNotFound _) => mkErrDict ("File not found: ".toList ++ file_path)
    | .error e => mkErrDict ("Error reading file: ".toList ++ errMsg e)
    | .ok fsize =>
      match env.readBytesStr file_path with
      | .error (.fileNotFound _) => mkErrDict ("File not found: ".toList ++ file_path)
      | .error e => mkErrDict ("Error reading file: ".toList ++ errMsg e)
      | .ok data =>
        .dict [(okKey, .bool true), ("query".toList, .str name),
          ("file_path".toList, .str file_path), ("file_size".toList, .int fsize),
          ("match_score".toList, matchScore),
          ("content_preview".toList, .str (env.decode (pyListSlice data max_bytes))),
          ("truncated".toList, .bool (decide ((data.length : Int) > max_bytes))),
          ("multiple_matches".toList, .bool (decide (1 < fileCount))),
          ("match_count".toList, .int fileCount)]

/-- `summarize_file`: a fuzzy `find_item` (whose exceptions propagate — the
call is not guarded), best-match selection, then the PDF or text reader. -/
def summarize_file (env : ToolEnv) (name : Str) (max_bytes : Int) : Except PyErr Val :=
  match find_item env name 5 (6 / 10) with
  | .error e => .error e
  | .ok fr =>
    if pyTruthy (vGetD fr okKey .null) = false then
      .ok (mkErrDict (match vGetD fr errKey (.str "find failed".toList) with
        | .str s => s
        | _ => "find failed".toList))
    else
      match vGetD fr "results".toList (.list []) with
      | .list rs =>
        if rs.isEmpty then
          .ok (mkErrDict ("No files found matching ".toList ++ quoteChar ++ name ++
            quoteChar ++ ". Try a different search term.".toList))
        else
          let files := rs.filter (fun r => !(pyTruthy (vGetD r "is_dir".toList (.bool false))))
          match files with
          | [] =>
            .ok (mkErrDict ("Found ".toList ++ intToStr rs.length ++
              " match(es), but all were directories. Need a file to summarize.".toList))
          | best :: _ =>
            match vGet best "path".toList with
            | some (.str file_path) =>
              let matchScore := vGetD best "match_score".toList (.int 0)
              let file_ext := lowerStr (pySuffix file_path)
              if file_ext = ".pdf".toList then
                if ¬ env.hasPdf then
                  .ok (mkErrDict "PDF support not available. Install pdfplumber to read PDFs: pip install pdfplumber".toList)
                else
                  .ok (summarizePdf env name file_path max_bytes matchScore files.length)
              else if ¬ file_ext.isEmpty ∧ ¬ file_ext ∈ text_extensions then
                .ok (mkErrDict ("File type ".toList ++ quoteChar ++ file_ext ++ quoteChar ++
                  " may not be a text file. File: ".toList ++ file_path))
              else
                .ok (summarizeText env name file_path max_bytes matchScore files.length)
            | _ => .error (.err "KeyError".toList)
      | _ => .error (.err "TypeError".toList)

/-! ### core/tools.py: the remaining tools -/

/-- `Entry.is_dir`. -/
def entryIsDir : Entry → Bool
  | .dir => true
  | .file _ => false

/-- The children of directory `p` in the filesystem. -/
def fsChildren (fs : FS) (p : PathC) : List (Str × Entry) :=
  fs.filterMap (fun kv =>
    if ¬ kv.1 = [] ∧ pathParent kv.1 = p then some (pathCName kv.1, kv.2) else none)

/-- Lexicographic strict order on strings by code point. -/
def strLtB : Str → Str → Bool
  | [], [] => false
  | [], _ :: _ => true
  | _ :: _, [] => false
  | a :: as_, b :: bs => if a.toNat < b.toNat then true else if a == b then strLtB as_ bs else false

/-- Non-strict string order. -/
def strLeB (a b : Str) : Bool := strLtB a b || a == b

/-- Python tuple order on the sort key `(not is_dir, name.lower())`. -/
def keyLe (k1 k2 : Bool × Str) : Bool :=
  if k1.1 = k2.1 then strLeB k1.2 k2.2 else k1.1 == false

/-- The `sorted(p.iterdir(), key=...)` key. -/
def dirSortKey (x : Str × Entry) : Bool × Str := (!(entryIsDir x.2), lowerStr x.1)

/-- `list_directory`: existence and directory checks, a sorted scan of the
children with hidden-file, pattern and stat-failure filtering. -/
def list_directory (env : ToolEnv) (fs : FS) (path : Str) (show_hidden : Bool)
    (pattern : Option Str) : Val :=
  let p := env.normalize path
  if ¬ fsExists fs p then mkErrDict ("Directory not found: ".toList ++ path)
  else if ¬ fsIsDir fs p = true then mkErrDict ("Path is not a directory: ".toList ++ path)
  else
    let children := List.insertionSort
      (fun x y => keyLe (dirSortKey x) (dirSortKey y) = true) (fsChildren fs p)
    let items := children.filterMap (fun ne =>
      if !show_hidden && strStarts ne.1 ['.'] then none
      else if (match pattern with
        | some pat => !(pyTruthy (.str pat)) || env.fnmatchB ne.1 pat
        | none => true) = false then none
      else if env.statFails (p ++ [ne.1]) then none
      else some (Val.dict [("name".toList, .str ne.1),
        ("is_dir".toList, .bool (entryIsDir ne.2)),
        ("size".toList, match ne.2 with
          | .file d => .int d.length
          | .dir => .null),
        ("modified".toList, .int (env.mtimeAt (p ++ [ne.1]))),
        ("path".toList, .str (env.showPath (p ++ [ne.1])))]))
    .dict [(okKey, .bool true), ("path".toList, .str (env.showPath p)),
           ("items".toList, .list items), ("count".toList, .int items.length)]

/-- The line loop of `search_content`: append matches, stopping once
`max_results` is reached. -/
def searchLines (relName sq : Str) (case_sensitive : Bool) (maxR : Int) :
    List Str → Nat → List Val → List Val
  | [], _, acc => acc
  | l :: rest, n, acc =>
    let cl := if case_sensitive then l else lowerStr l
    if pyIn sq cl then
      let acc' := acc ++ [Val.dict [("file".toList, .str relName),
        ("line_number".toList, .int n), ("line_content".toList, .str (pyRstrip l))]]
      if (acc'.length : Int) ≥ maxR then acc' else searchLines relName sq case_sensitive maxR rest (n + 1) acc'
    else searchLines relName sq case_sensitive maxR rest (n + 1) acc

/-- The file loop of `search_content`: skip non-files, oversized files and
unreadable files; stop once `max_results` is reached. -/
def searchFiles (env : ToolEnv) (fs : FS) (root : PathC) (sq : Str)
    (case_sensitive : Bool) (maxR : Int) : List PathC → List Val → List Val
  | [], acc => acc
  | f :: rest, acc =>
    if ¬ fsIsFile fs f then searchFiles env fs root sq case_sensitive maxR rest acc
    else
      match fsFind fs f with
      | some (.file d) =>
        if (d.length : Int) > 10000000 then searchFiles env fs root sq case_sensitive maxR rest acc
        else
          match env.readLines f with
          | .error _ => searchFiles env fs root sq case_sensitive maxR rest acc
          | .ok lines =>
            let acc' := searchLines (env.relStr root f) sq case_sensitive maxR lines 1 acc
            if (acc'.length : Int) ≥ maxR then acc'
            else searchFiles env fs root sq case_sensitive maxR rest acc'
      | _ => searchFiles env fs root sq case_sensitive maxR rest acc

/-- `search_content`. -/
def search_content (env : ToolEnv) (fs : FS) (query path : Str)
    (file_pattern : Option Str) (max_results : Int) (case_sensitive : Bool) : Val :=
  let p := env.normalize path
  if ¬ fsExists fs p then mkErrDict ("Directory not found: ".toList ++ path)
  else if ¬ fsIsDir fs p = true then mkErrDict ("Path is not a directory: ".toList ++ path)
  else
    let sq := if case_sensitive then query else lowerStr query
    let fp := match file_pattern with
      | some s => if s.isEmpty then none else some s
      | none => none
    let results := searchFiles env fs p sq case_sensitive max_results (env.glob p fp) []
    .dict [(okKey, .bool true), ("query".toList, .str query),
           ("search_path".toList, .str (env.showPath p)),
           ("results".toList, .list results),
           ("result_count".toList, .int results.length),
           ("truncated".toList, .bool (decide ((results.length : Int) ≥ max_results)))]

/-- The suffix-to-description table of `get_file_info`. -/
def typeMap : List (Str × Str) :=
  [(".py".toList, "Python script".toList), (".js".toList, "JavaScript file".toList),
   (".txt".toList, "Text file".toList), (".md".toList, "Markdown file".toList),
   (".json".toList, "JSON file".toList), (".pdf".toList, "PDF document".toList),
   (".zip".toList, "ZIP archive".toList), (".tar".toList, "TAR archive".toList),
   (".gz".toList, "GZIP archive".toList)]

/-- Association-list lookup for `typeMap`. -/
def alookup : List (Str × Str) → Str → Option Str
  | [], _ => none
  | (k', v) :: rest, k => if k' = k then some v else alookup rest k

/-- `get_file_info`. -/
def get_file_info (env : ToolEnv) (fs : FS) (path : Str) : Val :=
  let p := env.normalize path
  if ¬ fsExists fs p then mkErrDict ("File not found: ".toList ++ path)
  else
    match env.statInfo p with
    | .error e => mkErrDict ("Error getting file info: ".toList ++ errMsg e)
    | .ok st =>
      let isDir := fsIsDir fs p
      let suffix := lowerStr (pySuffix (pathCName p))
      let ftype : Str :=
        if isDir then "directory".toList
        else match alookup typeMap suffix with
          | some t => t
          | none => if suffix.isEmpty then "Unknown".toList
                    else upperStr (suffix.drop 1) ++ " file".toList
      .dict [(okKey, .bool true), ("file_info".toList, .dict
        [("path".toList, .str (env.showPath p)), ("name".toList, .str (pathCName p)),
         ("type".toList, .str ftype), ("is_directory".toList, .bool isDir),
         ("size".toList, .str (env.fmtComma st.size ++ " bytes".toList)),
         ("created".toList, .str st.created), ("modified".toList, .str st.modified),
         ("accessed".toList, .str st.accessed), ("permissions".toList, .str st.perms)])]

/-- `compare_files`. -/
def compare_files (env : ToolEnv) (fs : FS) (file1 file2 : Str) (context_lines : Int) : Val :=
  let f1 := env.normalize file1
  let f2 := env.normalize file2
  if ¬ fsExists fs f1 then mkErrDict ("First file not found: ".toList ++ file1)
  else if ¬ fsExists fs f2 then mkErrDict ("Second file not found: ".toList ++ file2)
  else
    match env.readLines f1 with
    | .error (.unicode _) =>
      mkErrDict ("Cannot read ".toList ++ file1 ++ " as text (binary file?)".toList)
    | .error e => mkErrDict ("Error comparing files: ".toList ++ errMsg e)
    | .ok lines1 =>
      match env.readLines f2 with
      | .error (.unicode _) =>
        mkErrDict ("Cannot read ".toList ++ file2 ++ " as text (binary file?)".toList)
      | .error e => mkErrDict ("Error comparing files: ".toList ++ errMsg e)
      | .ok lines2 =>
        let diffLines := env.unifiedDiff lines1 lines2 (env.showPath f1) (env.showPath f2) context_lines
        if diffLines.isEmpty then
          .dict [(okKey, .bool true), ("file1".toList, .str (env.showPath f1)),
                 ("file2".toList, .str (env.showPath f2)),
                 ("identical".toList, .bool true),
                 ("diff".toList, .str "Files are identical".toList)]
        else
          .dict [(okKey, .bool true), ("file1".toList, .str (env.showPath f1)),
                 ("file2".toList, .str (env.showPath f2)),
                 ("identical".toList, .bool false),
                 ("diff".toList, .str (joinNl diffLines)),
                 ("changes".toList, .int
                   (diffLines.filter (fun l => strStarts l ['+'] || strStarts l ['-'])).length)]

/-- `extract_archive`. -/
def extract_archive (env : ToolEnv) (fs : FS) (archive_path : Str)
    (destination : Option Str) : Val × FS :=
  let arc := env.normalize archive_path
  if ¬ fsExists fs arc then (mkErrDict ("Archive not found: ".toList ++ archive_path), fs)
  else
    let dest := match destination with
      | some d => if d.isEmpty then pathParent arc ++ [pyStem (pathCName arc)]
                  else env.normalize d
      | none => pathParent arc ++ [pyStem (pathCName arc)]
    match mkdirParents fs dest with
    | .error e => (mkErrDict ("Error extracting archive: ".toList ++ errMsg e), fs)
    | .ok fs1 =>
      let suffix := lowerStr (pySuffix (pathCName arc))
      if suffix = ".zip".toList then
        match env.zipExtract fs1 arc dest with
        | .error e => (mkErrDict ("Error extracting archive: ".toList ++ errMsg e), fs1)
        | .ok (fs2, names) =>
          (.dict [(okKey, .bool true), ("archive".toList, .str (env.showPath arc)),
                  ("destination".toList, .str (env.showPath dest)),
                  ("extracted_files".toList, .list ((pyListSlice names 20).map .str)),
                  ("total_files".toList, .int names.length)], fs2)
      else if suffix ∈ [".tar".toList, ".gz".toList, ".tgz".toList] ∨
          strStarts (pathCName arc).reverse (".tar.gz".toList).reverse then
        match env.tarExtract fs1 arc dest with
        | .error e => (mkErrDict ("Error extracting archive: ".toList ++ errMsg e), fs1)
        | .ok (fs2, names) =>
          (.dict [(okKey, .bool true), ("archive".toList, .str (env.showPath arc)),
                  ("destination".toList, .str (env.showPath dest)),
                  ("extracted_files".toList, .list ((pyListSlice names 20).map .str)),
                  ("total_files".toList, .int names.length)], fs2)
      else
        (mkErrDict ("Unsupported archive format: ".toList ++ pySuffix (pathCName arc) ++
          ". Supported: .zip, .tar, .tar.gz, .tgz".toList), fs1)

/-! ### Spec-side predicates and auxiliary definitions for the theorems -/

/-- Spec wording for the `plan` field: when present it must be a string. -/
def specFieldStrOk : Option Val → Prop
  | none => True
  | some (.str _) => True
  | some _ => False

/-- Spec wording for one action: a JSON object with a string `tool` and,
when present, an object `args`. -/
def specActionObjOk : Val → Prop
  | .dict kvs =>
    (∃ t, dlookup kvs "tool".toList = some (.str t)) ∧
      (match dlookup kvs "args".toList with
        | none => True
        | some (.dict _) => True
        | some _ => False)
  | _ => False

/-- Spec wording for the `actions` field: when present, a list of objects
each of which satisfies `specActionObjOk`. -/
def specActionsOk : Option Val → Prop
  | none => True
  | some (.list xs) => ∀ v ∈ xs, specActionObjOk v
  | some _ => False

/-- The `"ok"` flag of a tool-result dictionary. -/
def resultOk (v : Val) : Option Bool :=
  match v with
  | .dict kvs =>
    match dlookup kvs okKey with
    | some (.bool b) => some b
    | _ => none
  | _ => none

/-- The result carries a string under `"error"`. -/
def hasErrStr (v : Val) : Prop :=
  match v with
  | .dict kvs => ∃ s, dlookup kvs errKey = some (.str s)
  | _ => False

/-- A well-formed tool result: it has a boolean `"ok"`, and when `"ok"` is
`False` it has an error string. -/
def goodResult (v : Val) : Prop :=
  (∃ b, resultOk v = some b) ∧ (resultOk v = some false → hasErrStr v)

/-- A concrete oracle with everything benign, used to instantiate theorems
on closed inputs. -/
def trivEnv : ToolEnv where
  normalize := fun s => [s]
  showPath := fun p => List.intercalate ['/'] p
  subprocessRun := fun _ => .ok (0, [], [])
  decode := fun bs => bs.map Char.ofNat
  cwd := .ok []
  home := .ok []
  existsAt := fun _ => false
  resolve := id
  scan := fun _ => []
  existsStr := fun _ => false
  statSizeStr := fun _ => .ok 0
  readBytesStr := fun _ => .error (.fileNotFound [])
  hasPdf := false
  pdfPages := fun _ => .ok []
  mtimeAt := fun _ => 0
  statFails := fun _ => false
  fnmatchB := fun _ _ => true
  glob := fun _ _ => []
  readLines := fun _ => .ok []
  relStr := fun _ p => List.intercalate ['/'] p
  fmtComma := fun n => intToStr n
  statInfo := fun _ => .ok ⟨0, [], [], [], []⟩
  unifiedDiff := fun _ _ _ _ _ => []
  zipExtract := fun fs _ _ => .ok (fs, [])
  tarExtract := fun fs _ _ => .ok (fs, [])

/-- The oracle in a state where `Path.cwd()` raises (the working directory
was unlinked). -/
def badEnv : ToolEnv :=
  { trivEnv with cwd := .error (.err "FileNotFoundError: cwd".toList) }

/-! ## Theorems -/

/-- Invariant preservation along a left fold. -/
theorem foldl_invariant {α β : Type _} (P : β → Prop) (f : β → α → β) (l : List α) (init : β)
    (h0 : P init) (hstep : ∀ b a, a ∈ l → P b → P (f b a)) : P (l.foldl f init) := by
  induction l generalizing init with
  | nil => exact h0
  | cons x xs ih =>
    exact ih _ (hstep _ _ (List.mem_cons_self _ _) h0)
      (fun b a ha hb => hstep b a (List.mem_cons_of_mem _ ha) hb)

/-- A common initial segment is no longer than the first string. -/
theorem cpl_le_left : ∀ a b : Str, cpl a b ≤ a.length
  | [], _ => by simp [cpl]
  | _ :: _, [] => by simp [cpl]
  | a :: as_, b :: bs => by
    simp only [cpl, List.length_cons]
    split
    · exact Nat.succ_le_succ (cpl_le_left as_ bs)
    · exact Nat.zero_le _

/-- A common initial segment is no longer than the second string. -/
theorem cpl_le_right : ∀ a b : Str, cpl a b ≤ b.length
  | [], _ => by simp [cpl]
  | _ :: _, [] => by simp [cpl]
  | a :: as_, b :: bs => by
    simp only [cpl, List.length_cons]
    split
    · exact Nat.succ_le_succ (cpl_le_right as_ bs)
    · exact Nat.zero_le _

/-- The longest matching block lies inside both strings. -/
theorem flm_bounds (a b : Str) :
    (flm a b).1 + (flm a b).2.2 ≤ a.length ∧ (flm a b).2.1 + (flm a b).2.2 ≤ b.length := by
  unfold flm
  refine foldl_invariant
    (fun t : Nat × Nat × Nat => t.1 + t.2.2 ≤ a.length ∧ t.2.1 + t.2.2 ≤ b.length)
    _ _ _ ⟨Nat.zero_le _, Nat.zero_le _⟩ ?_
  intro t i hi ht
  refine foldl_invariant
    (fun t : Nat × Nat × Nat => t.1 + t.2.2 ≤ a.length ∧ t.2.1 + t.2.2 ≤ b.length)
    _ _ _ ht ?_
  intro t' j hj ht'
  simp only
  split
  · have hk1 : cpl (a.drop i) (b.drop j) ≤ a.length - i := by
      simpa using cpl_le_left (a.drop i) (b.drop j)
    have hk2 : cpl (a.drop i) (b.drop j) ≤ b.length - j := by
      simpa using cpl_le_right (a.drop i) (b.drop j)
    have hi' : i < a.length := List.mem_range.1 hi
    have hj' : j < b.length := List.mem_range.1 hj
    refine ⟨?_, ?_⟩
    · show i + cpl (a.drop i) (b.drop j) ≤ a.length
      omega
    · show j + cpl (a.drop i) (b.drop j) ≤ b.length
      omega
  · exact ht'

/-- The total match size is bounded by both string lengths. -/
theorem mtGo_le (fuel : Nat) : ∀ a b : Str, mtGo fuel a b ≤ a.length ∧ mtGo fuel a b ≤ b.length := by
  induction fuel with
  | zero => intro a b; simp [mtGo]
  | succ n ih =>
    intro a b
    have hfb := flm_bounds a b
    simp only [mtGo]
    rcases heq : flm a b with ⟨i, j, k⟩
    rw [heq] at hfb
    simp only at hfb ⊢
    split
    · simp
    · rename_i hk
      have h1 := ih (a.take i) (b.take j)
      have h2 := ih (a.drop (i + k)) (b.drop (j + k))
      simp only [List.length_take, List.length_drop] at h1 h2
      constructor
      · have := h1.1; have := h2.1; omega
      · have := h1.2; have := h2.2; omega

/-- `M ≤ min(len a, len b)`. -/
theorem matchTotal_le (a b : Str) : matchTotal a b ≤ a.length ∧ matchTotal a b ≤ b.length :=
  mtGo_le _ a b

/-- `ratio` is non-negative. -/
theorem ratioQ_nonneg (a b : Str) : 0 ≤ ratioQ a b := by
  unfold ratioQ
  split
  · norm_num
  · apply div_nonneg
    · positivity
    · positivity

/-- `ratio` is at most `1`. -/
theorem ratioQ_le_one (a b : Str) : ratioQ a b ≤ 1 := by
  unfold ratioQ
  split
  · norm_num
  · rename_i h
    have hpos : (0 : ℚ) < (a.length : ℚ) + (b.length : ℚ) := by
      have : 0 < a.length + b.length := Nat.pos_of_ne_zero h
      exact_mod_cast this
    rw [div_le_one hpos]
    have c1 : (matchTotal a b : ℚ) ≤ (a.length : ℚ) := by exact_mod_cast (matchTotal_le a b).1
    have c2 : (matchTotal a b : ℚ) ≤ (b.length : ℚ) := by exact_mod_cast (matchTotal_le a b).2
    linarith

/-- Every branch of the fuzzy score lies in `[0, 1.05]`. -/
theorem fuzzy_bounds (q t : Str) :
    0 ≤ fuzzy_match_score q t ∧ fuzzy_match_score q t ≤ 1.05 := by
  have hr1 := ratioQ_nonneg (lowerStr q) (lowerStr t)
  have hr2 := ratioQ_le_one (lowerStr q) (lowerStr t)
  have hs2 := ratioQ_le_one (lowerStr q) (lowerStr (pyStem t))
  unfold fuzzy_match_score
  dsimp only
  split_ifs <;> try norm_num
  exact ⟨Or.inl hr1, by linarith, hs2⟩

/-- Case-insensitively equal strings score exactly `1`. -/
theorem fuzzy_eq_one (q t : Str) (h : lowerStr q = lowerStr t) : fuzzy_match_score q t = 1 := by
  unfold fuzzy_match_score
  dsimp only
  rw [if_pos h]

/-- C6 (amended): for every pair of strings the fuzzy similarity score lies
between `0` and `1.05` inclusive, and equals `1.0` whenever query and target
are equal ignoring case. -/
theorem fuzzy_match_score_range (query target : Str) :
    0 ≤ fuzzy_match_score query target ∧ fuzzy_match_score query target ≤ 1.05 ∧
      (lowerStr query = lowerStr target → fuzzy_match_score query target = 1) :=
  ⟨(fuzzy_bounds query target).1, (fuzzy_bounds query target).2, fuzzy_eq_one query target⟩

/-- C6 witness: the bounds and the equal-ignoring-case case at concrete
strings. -/
theorem fuzzy_match_score_range_witness :
    0 ≤ fuzzy_match_score ("Readme".toList) ("readme".toList) ∧
      fuzzy_match_score ("Readme".toList) ("readme".toList) = 1 :=
  ⟨(fuzzy_match_score_range ("Readme".toList) ("readme".toList)).1,
   (fuzzy_match_score_range ("Readme".toList) ("readme".toList)).2.2 (by decide)⟩

set_option maxRecDepth 40000 in
/-- C6 counterexample: for the extension-less query `aaaaaaaaaaaa` against
the file name `aaaaaaaaaaa.t`, the stem ratio is `22/23` and the returned
score `22/23 · 1.05 = 231/230` exceeds `1`, refuting the claim that the
score always lies between `0` and `1`. -/
theorem fuzzy_match_score_gt_one :
    1 < fuzzy_match_score ("aaaaaaaaaaaa".toList) ("aaaaaaaaaaa.t".toList) := by
  have hr : ratioQ (lowerStr "aaaaaaaaaaaa".toList) (lowerStr "aaaaaaaaaaa.t".toList) = 22 / 25 := by
    unfold ratioQ
    rw [if_neg (by decide)]
    rw [show matchTotal (lowerStr "aaaaaaaaaaaa".toList) (lowerStr "aaaaaaaaaaa.t".toList) = 11
      from by decide]
    rw [show (List.length (lowerStr "aaaaaaaaaaaa".toList)) = 12 from by decide,
      show (List.length (lowerStr "aaaaaaaaaaa.t".toList)) = 13 from by decide]
    norm_num
  have hs : ratioQ (lowerStr "aaaaaaaaaaaa".toList) (lowerStr (pyStem "aaaaaaaaaaa.t".toList)) = 22 / 23 := by
    unfold ratioQ
    rw [if_neg (by decide)]
    rw [show matchTotal (lowerStr "aaaaaaaaaaaa".toList) (lowerStr (pyStem "aaaaaaaaaaa.t".toList)) = 11
      from by decide]
    rw [show (List.length (lowerStr "aaaaaaaaaaaa".toList)) = 12 from by decide,
      show (List.length (lowerStr (pyStem "aaaaaaaaaaa.t".toList))) = 11 from by decide]
    norm_num
  unfold fuzzy_match_score
  dsimp only
  rw [if_neg (by decide), if_neg (by decide), if_neg (by decide), if_neg (by decide)]
  rw [hr, hs]
  rw [show ((22 : ℚ) / 25) ⊔ ((22 : ℚ) / 23 * 1.05) = 22 / 23 * 1.05 from max_eq_right (by norm_num)]
  norm_num

/-- C2: the executor invokes `run_shell` only on commands `_is_command_safe`
accepts; a command containing a deny-list substring in any letter case is
blocked (and never invoked); every command free of the deny-list substrings
passes the filter. -/
theorem run_shell_deny_list (cmd : Str) :
    (∀ c, exec_run_shell_dispatch cmd = .invoked c → is_command_safe cmd = true)
    ∧ ((∃ pat ∈ DANGEROUS_SUBSTRINGS, pyIn pat (lowerStr cmd) = true) →
        exec_run_shell_dispatch cmd = .blocked ∧
          ∀ c, ¬ exec_run_shell_dispatch cmd = .invoked c)
    ∧ ((∀ pat ∈ DANGEROUS_SUBSTRINGS, pyIn pat (lowerStr cmd) = false) →
        is_command_safe cmd = true) := by
  refine ⟨?_, ?_, ?_⟩
  · intro c h
    unfold exec_run_shell_dispatch at h
    split_ifs at h with h1 h2
    all_goals
      first
        | exact ShellDispatch.noConfusion h
        | simpa using h2
  · rintro ⟨pat, hmem, hin⟩
    have hsafe : is_command_safe cmd = false := by
      rw [Bool.eq_false_iff]
      intro hall
      rw [is_command_safe, List.all_eq_true] at hall
      have := hall pat hmem
      simp [hin] at this
    have hne : cmd.isEmpty = false := by
      cases cmd with
      | nil =>
        exfalso
        simp only [DANGEROUS_SUBSTRINGS, List.mem_cons, List.not_mem_nil, or_false] at hmem
        rcases hmem with rfl | rfl | rfl <;> revert hin <;> decide
      | cons c cs => rfl
    have hout : exec_run_shell_dispatch cmd = .blocked := by
      unfold exec_run_shell_dispatch
      rw [if_neg (by simp [hne]), if_pos (by simp [hsafe])]
    exact ⟨hout, fun c h => by rw [hout] at h; exact ShellDispatch.noConfusion h⟩
  · intro hall
    unfold is_command_safe
    rw [List.all_eq_true]
    intro pat hmem
    simp [hall pat hmem]

/-- C2 witness: a concrete blocked command (upper-case `MKFS`) and a
concrete command that passes the filter. -/
theorem run_shell_deny_list_witness :
    exec_run_shell_dispatch ("echo MKFS test".toList) = .blocked ∧
      is_command_safe ("ls -la".toList) = true := by
  constructor
  · exact ((run_shell_deny_list ("echo MKFS test".toList)).2.1
      ⟨"mkfs".toList, by decide, by decide⟩).1
  · exact (run_shell_deny_list ("ls -la".toList)).2.2 (by decide)

/-- Action validation succeeds exactly on the spec shape. -/
theorem validateAction_isSome (v : Val) : (validateAction v).isSome ↔ specActionObjOk v := by
  cases v with
  | dict kvs =>
    simp only [validateAction, specActionObjOk]
    cases htool : dlookup kvs ("tool".toList) with
    | none => simp
    | some vt =>
      cases vt with
      | null => simp
      | bool b => simp
      | int n => simp
      | num q => simp
      | list xs => simp
      | dict d => simp
      | str t =>
        cases hargs : dlookup kvs ("args".toList) with
        | none => simp
        | some va =>
          cases va with
          | null => simp
          | bool b => simp
          | int n => simp
          | num q => simp
          | str s => simp
          | list xs => simp
          | dict d => simp
  | null => simp [validateAction, specActionObjOk]
  | bool b => simp [validateAction, specActionObjOk]
  | int n => simp [validateAction, specActionObjOk]
  | num q => simp [validateAction, specActionObjOk]
  | str s => simp [validateAction, specActionObjOk]
  | list xs => simp [validateAction, specActionObjOk]

/-- Traversing the action list succeeds exactly when every member
validates. -/
theorem traverseActs_isSome (xs : List Val) :
    (traverseActs xs).isSome ↔ ∀ v ∈ xs, (validateAction v).isSome := by
  induction xs with
  | nil => simp [traverseActs]
  | cons x xs ih =>
    simp only [traverseActs]
    cases hx : validateAction x with
    | none => simp [hx]
    | some a =>
      cases hxs : traverseActs xs with
      | none => simp [hx, hxs, ih.symm]
      | some as_ => simp [hx, hxs, ih.symm]

/-- The `plan` field validates exactly on the spec shape. -/
theorem planFieldVal_isSome (o : Option Val) : (planFieldVal o).isSome ↔ specFieldStrOk o := by
  cases o with
  | none => simp [planFieldVal, specFieldStrOk]
  | some v => cases v <;> simp [planFieldVal, specFieldStrOk]

/-- The `actions` field validates exactly on the spec shape. -/
theorem actionsFieldVal_isSome (o : Option Val) :
    (actionsFieldVal o).isSome ↔ specActionsOk o := by
  cases o with
  | none => simp [actionsFieldVal, specActionsOk]
  | some v =>
    cases v <;>
      simp [actionsFieldVal, validateActions, specActionsOk, traverseActs_isSome,
        validateAction_isSome]

/-- C5: a JSON object validates as a `Plan` exactly when, where present,
`plan` is a string and `actions` is a list of objects each with a string
`tool` and (when present) an object `args`; missing `plan`, `actions` and
`args` take their documented defaults; the tool name is never checked
against the implemented tools. -/
theorem plan_validation_shape :
    (∀ kvs, (validatePlan (.dict kvs)).isSome ↔
      (specFieldStrOk (dlookup kvs "plan".toList) ∧ specActionsOk (dlookup kvs "actions".toList)))
    ∧ (∀ kvs p, dlookup kvs "plan".toList = none → validatePlan (.dict kvs) = some p →
        p.plan = PLAN_DEFAULT)
    ∧ (∀ kvs p, dlookup kvs "actions".toList = none → validatePlan (.dict kvs) = some p →
        p.actions = [])
    ∧ (∀ kvs a, dlookup kvs "args".toList = none → validateAction (.dict kvs) = some a →
        a.args = [])
    ∧ (∀ t : Str, validateAction (.dict [("tool".toList, .str t)]) = some ⟨t, []⟩) := by
  refine ⟨?_, ?_, ?_, ?_, ?_⟩
  · intro kvs
    simp only [validatePlan]
    rw [← planFieldVal_isSome, ← actionsFieldVal_isSome]
    cases planFieldVal (dlookup kvs "plan".toList) <;>
      cases actionsFieldVal (dlookup kvs "actions".toList) <;> simp
  · intro kvs p hnone hval
    simp only [validatePlan, hnone, planFieldVal] at hval
    cases ha : actionsFieldVal (dlookup kvs "actions".toList) with
    | none => rw [ha] at hval; exact Option.noConfusion hval
    | some a =>
      rw [ha] at hval
      cases hval
      rfl
  · intro kvs p hnone hval
    simp only [validatePlan, hnone, actionsFieldVal] at hval
    cases hp : planFieldVal (dlookup kvs "plan".toList) with
    | none => rw [hp] at hval; exact Option.noConfusion hval
    | some pl =>
      rw [hp] at hval
      cases hval
      rfl
  · intro kvs a hnone hval
    simp only [validateAction, hnone] at hval
    cases ht : dlookup kvs ("tool".toList) with
    | none => rw [ht] at hval; exact Option.noConfusion hval
    | some vt =>
      rw [ht] at hval
      cases vt <;> try exact Option.noConfusion hval
      cases hval
      rfl
  · intro t
    rfl

/-- C5 witness: the empty JSON object validates with both defaults, and an
unknown tool name is accepted. -/
theorem plan_validation_shape_witness :
    (validatePlan (Val.dict [])).isSome ∧
      (∀ p, validatePlan (Val.dict []) = some p → p.plan = PLAN_DEFAULT ∧ p.actions = []) ∧
      validateAction (Val.dict [("tool".toList, Val.str "no_such_tool".toList)]) =
        some ⟨"no_such_tool".toList, []⟩ := by
  refine ⟨?_, ?_, ?_⟩
  · exact (plan_validation_shape.1 []).2 ⟨trivial, trivial⟩
  · intro p hp
    exact ⟨plan_validation_shape.2.1 [] p rfl hp, plan_validation_shape.2.2.1 [] p rfl hp⟩
  · exact plan_validation_shape.2.2.2.2 ("no_such_tool".toList)

/-- C1: `get_action_plan` yields a plan exactly along the code's parsing
cascade: an empty or whitespace-only reply yields `None`; a reply that
parses directly yields the validation of that JSON; with no parse and no
fence it yields `None`; with a fence, the fence-stripped parse decides; and
every returned plan is the successful validation of a JSON value obtained
either directly or from the fence strategies. -/
theorem get_action_plan_spec (jsonLoads : Str → Option Val) (raw : Str) :
    ((pyStrip raw).isEmpty = true → get_action_plan jsonLoads raw = none)
    ∧ (∀ j, (pyStrip raw).isEmpty = false → jsonLoads (pyStrip raw) = some j →
        get_action_plan jsonLoads raw = validatePlan j)
    ∧ ((pyStrip raw).isEmpty = false → jsonLoads (pyStrip raw) = none →
        pyIn FENCE (pyStrip raw) = false → get_action_plan jsonLoads raw = none)
    ∧ (∀ j, (pyStrip raw).isEmpty = false → jsonLoads (pyStrip raw) = none →
        pyIn FENCE (pyStrip raw) = true → fencedParse jsonLoads (pyStrip raw) = some j →
        get_action_plan jsonLoads raw = validatePlan j)
    ∧ (∀ p, get_action_plan jsonLoads raw = some p →
        ∃ j, validatePlan j = some p ∧
          (jsonLoads (pyStrip raw) = some j ∨ fencedParse jsonLoads (pyStrip raw) = some j)) := by
  refine ⟨?_, ?_, ?_, ?_, ?_⟩
  · intro h
    simp [get_action_plan, extract_json, h]
  · intro j hne hj
    simp [get_action_plan, extract_json, hne, hj]
  · intro hne hj hf
    simp [get_action_plan, extract_json, hne, hj, hf]
  · intro j hne hj hf hfp
    simp [get_action_plan, extract_json, hne, hj, hf, hfp]
  · intro p hp
    simp only [get_action_plan, extract_json] at hp
    cases hre : (pyStrip raw).isEmpty with
    | true => rw [hre] at hp; simp at hp
    | false =>
      rw [hre] at hp
      simp only [Bool.false_eq_true, if_false] at hp
      cases hj : jsonLoads (pyStrip raw) with
      | some j =>
        rw [hj] at hp
        exact ⟨j, hp, Or.inl rfl⟩
      | none =>
        rw [hj] at hp
        cases hf : pyIn FENCE (pyStrip raw) with
        | false => rw [hf] at hp; simp at hp
        | true =>
          rw [hf] at hp
          simp only [if_true] at hp
          cases hfp : fencedParse jsonLoads (pyStrip raw) with
          | none => rw [hfp] at hp; simp at hp
          | some j =>
            rw [hfp] at hp
            exact ⟨j, hp, Or.inr rfl⟩

/-- C1 witness: a fenced-free direct parse producing the default plan, and a
reply with neither parse nor fence producing `None`. -/
theorem get_action_plan_spec_witness :
    get_action_plan (fun s => if s = ("\x7b\x7d".toList) then some (Val.dict []) else none)
        ("  \x7b\x7d ".toList) = validatePlan (Val.dict [])
    ∧ get_action_plan (fun _ => none) ("hello".toList) = none := by
  constructor
  · exact (get_action_plan_spec _ _).2.1 (Val.dict []) (by decide) rfl
  · exact (get_action_plan_spec _ _).2.2.1 (by decide) rfl (by decide)

/-- C4: `execute_plan` asks for confirmation before executing anything; a
declined confirmation produces no tool dispatch at all; an accepted one runs
the plan's actions in list order. -/
theorem execute_plan_confirmation (w : Str → ActionM → List ExecEvent) (plan : PlanM) :
    execute_plan w plan false = [.showPlanInfo, .askProceed]
    ∧ (∀ e ∈ execute_plan w plan false, ∀ t, ¬ e = .toolCall t)
    ∧ (∀ proceed, (execute_plan w plan proceed).take 2 = [.showPlanInfo, .askProceed])
    ∧ execute_plan w plan true =
        .showPlanInfo :: .askProceed ::
          (plan.actions.map (fun a => .actionHeader a.tool :: dispatch_action w a)).flatten := by
  refine ⟨?_, ?_, ?_, ?_⟩
  · simp [execute_plan]
  · intro e he t
    have h2 : e = ExecEvent.showPlanInfo ∨ e = ExecEvent.askProceed := by
      simpa [execute_plan] using he
    rcases h2 with rfl | rfl <;> simp
  · intro proceed
    cases proceed <;> simp [execute_plan]
  · simp [execute_plan]

/-- C4 witness: the confirmation event in a declined run of a concrete plan
is not a tool call. -/
theorem execute_plan_confirmation_witness :
    ¬ ExecEvent.askProceed = ExecEvent.toolCall ("run_shell".toList) :=
  (execute_plan_confirmation (fun _ _ => []) ⟨[], []⟩).2.1 ExecEvent.askProceed
    (by simp [execute_plan]) ("run_shell".toList)

/-- C9 (amended): for an existing regular file `read_file` returns the
ok-dictionary whose content decodes `data[:max_bytes]` and whose `truncated`
flag is `len(data) > max_bytes`, for every `max_bytes`; for `max_bytes ≥ 0`
the kept bytes are a prefix of at most `max_bytes` bytes; a missing path
yields the `file not found` error. -/
theorem read_file_spec (env : ToolEnv) (fs : FS) (path : Str) (max_bytes : Int) :
    (∀ d, fsFind fs (env.normalize path) = some (.file d) →
      read_file env fs path max_bytes =
        .dict [(okKey, .bool true),
               ("path".toList, .str (env.showPath (env.normalize path))),
               ("content".toList, .str (env.decode (pyListSlice d max_bytes))),
               ("truncated".toList, .bool (decide ((d.length : Int) > max_bytes)))])
    ∧ (∀ d : List Nat, 0 ≤ max_bytes →
        ∃ k : ℕ, (k : Int) ≤ max_bytes ∧ pyListSlice d max_bytes = d.take k)
    ∧ (fsFind fs (env.normalize path) = none →
        read_file env fs path max_bytes = mkErrDict ("file not found: ".toList ++ path)) := by
  refine ⟨?_, ?_, ?_⟩
  · intro d h
    unfold read_file
    dsimp only
    rw [show fsReadBytes fs (env.normalize path) = .ok d from by unfold fsReadBytes; rw [h]]
  · intro d h
    refine ⟨max_bytes.toNat, by omega, ?_⟩
    unfold pyListSlice
    rw [if_pos h]
  · intro h
    unfold read_file
    dsimp only
    rw [show fsReadBytes fs (env.normalize path) =
      .error (.fileNotFound "No such file or directory".toList) from by
        unfold fsReadBytes; rw [h]]

/-- C9 witness: reading a two-byte file with `max_bytes = 1` keeps one byte
and reports truncation. -/
theorem read_file_spec_witness :
    read_file trivEnv [(["f".toList], Entry.file [97, 98])] ("f".toList) 1 =
      Val.dict [(okKey, .bool true), ("path".toList, .str "f".toList),
        ("content".toList, .str ['a']), ("truncated".toList, .bool true)]
    ∧ ∃ k : ℕ, (k : Int) ≤ 1 ∧ pyListSlice [97, 98] (1 : Int) = [97, 98].take k := by
  constructor
  · exact (read_file_spec trivEnv [(["f".toList], Entry.file [97, 98])] ("f".toList) 1).1
      [97, 98] rfl
  · exact (read_file_spec trivEnv [] [] 1).2.1 [97, 98] (by norm_num)

/-- C9 counterexample: at `max_bytes = -1` a two-byte file is read with
`ok=True` and a one-byte content (`data[:-1]` drops the last byte), although
no prefix of at most `-1` bytes exists — so the content is not "decoded from
at most the first max_bytes bytes". -/
theorem read_file_negative_max_bytes :
    read_file trivEnv [(["f".toList], Entry.file [97, 98])] ("f".toList) (-1) =
      Val.dict [(okKey, .bool true), ("path".toList, .str "f".toList),
        ("content".toList, .str ['a']), ("truncated".toList, .bool true)]
    ∧ ¬ ∃ k : ℕ, (k : Int) ≤ -1 ∧ trivEnv.decode (List.take k [97, 98]) = ['a'] := by
  constructor
  · rfl
  · rintro ⟨k, hk, _⟩
    omega

/-- C10: any mode other than `append` overwrites: the file afterwards holds
exactly the UTF-8 bytes of `content`, the reported mode is `overwrite`, and
`existed_before`/`bytes_before`/`bytes_after` reflect the filesystem before
and after; with `append` the prior bytes are preserved as a prefix. -/
theorem write_file_spec (env : ToolEnv) (fs fs1 : FS) (path content mode : Str)
    (hp : (if fsExists fs (pathParent (env.normalize path)) then (.ok fs : Except PyErr FS)
           else mkdirParents fs (pathParent (env.normalize path))) = .ok fs1)
    (hnd : fsIsDir fs1 (env.normalize path) = false)
    (hpd : pathParent (env.normalize path) = [] ∨
           fsIsDir fs1 (pathParent (env.normalize path)) = true) :
    (¬ mode = "append".toList →
      write_file env fs path content mode =
        (.dict [(okKey, .bool true),
                ("path".toList, .str (env.showPath (env.normalize path))),
                ("mode".toList, .str "overwrite".toList),
                ("existed_before".toList, .bool (fsExists fs1 (env.normalize path))),
                ("bytes_before".toList, .int ((fsFileData fs1 (env.normalize path)).length : Int)),
                ("bytes_after".toList, .int ((utf8Enc content).length : Int))],
         fsSet fs1 (env.normalize path) (.file (utf8Enc content))))
    ∧ (mode = "append".toList →
      write_file env fs path content mode =
        (.dict [(okKey, .bool true),
                ("path".toList, .str (env.showPath (env.normalize path))),
                ("mode".toList, .str "append".toList),
                ("existed_before".toList, .bool (fsExists fs1 (env.normalize path))),
                ("bytes_before".toList, .int ((fsFileData fs1 (env.normalize path)).length : Int)),
                ("bytes_after".toList,
                  .int ((fsFileData fs1 (env.normalize path) ++ utf8Enc content).length : Int))],
         fsSet fs1 (env.normalize path)
           (.file (fsFileData fs1 (env.normalize path) ++ utf8Enc content)))) := by
  have hopen : ∀ bytes append, fsOpenWrite fs1 (env.normalize path) bytes append =
      .ok (fsSet fs1 (env.normalize path)
        (.file (if append then fsFileData fs1 (env.normalize path) ++ bytes else bytes))) := by
    intro bytes append
    unfold fsOpenWrite
    rw [if_neg (by simp [hnd]), if_neg (not_not_intro hpd)]
  have hsetData : ∀ d, fsFileData (fsSet fs1 (env.normalize path) (.file d))
      (env.normalize path) = d := by
    intro d
    unfold fsFileData fsSet fsFind
    rw [if_pos rfl]
  constructor
  · intro hm
    unfold write_file
    dsimp only
    rw [hp]
    dsimp only
    rw [hopen]
    dsimp only
    simp only [decide_eq_true_eq, if_neg hm, hsetData]
  · intro hm
    unfold write_file
    dsimp only
    rw [hp]
    dsimp only
    rw [hopen]
    dsimp only
    simp only [decide_eq_true_eq, if_pos hm, hsetData]

/-- C10 witness: overwriting a fresh file with `"hi"` creates it with the
two UTF-8 bytes and consistent size reports. -/
theorem write_file_spec_witness :
    write_file trivEnv [] ("f".toList) ("hi".toList) ("overwrite".toList) =
      (Val.dict [(okKey, .bool true), ("path".toList, .str "f".toList),
        ("mode".toList, .str "overwrite".toList),
        ("existed_before".toList, .bool false),
        ("bytes_before".toList, .int 0),
        ("bytes_after".toList, .int 2)],
       [(["f".toList], Entry.file [104, 105])]) := by
  have h := (write_file_spec trivEnv [] [] ("f".toList) ("hi".toList) ("overwrite".toList)
    rfl rfl (Or.inl rfl)).1 (by decide)
  rw [h]
  rfl

/-- Unfolding lemma for `fsFind` on a cons cell. -/
theorem fsFind_cons (k : PathC) (e : Entry) (rest : FS) (p : PathC) :
    fsFind ((k, e) :: rest) p = if k = p then some e else fsFind rest p := rfl

/-- Looking up the path just written. -/
theorem fsFind_fsSet_self (fs : FS) (p : PathC) (e : Entry) :
    fsFind (fsSet fs p e) p = some e := by
  unfold fsSet
  rw [fsFind_cons, if_pos rfl]

/-- Filtering with a predicate that keeps every entry at `p` does not change
the lookup at `p`. -/
theorem fsFind_filter_keep (fs : FS) (p : PathC) (pred : PathC × Entry → Bool)
    (hkeep : ∀ e, pred (p, e) = true) :
    fsFind (fs.filter pred) p = fsFind fs p := by
  induction fs with
  | nil => rfl
  | cons kv rest ih =>
    rcases kv with ⟨k, e⟩
    by_cases hk : k = p
    · subst hk
      rw [List.filter_cons, if_pos (hkeep e), fsFind_cons, fsFind_cons, if_pos rfl, if_pos rfl]
    · rw [List.filter_cons]
      by_cases hpk : pred (k, e) = true
      · rw [if_pos hpk, fsFind_cons, fsFind_cons, if_neg hk, if_neg hk, ih]
      · rw [if_neg hpk, fsFind_cons, if_neg hk, ih]

/-- Setting another key does not change a lookup. -/
theorem fsFind_fsSet_ne (fs : FS) (p q : PathC) (e : Entry) (h : ¬ q = p) :
    fsFind (fsSet fs q e) p = fsFind fs p := by
  unfold fsSet
  rw [fsFind_cons, if_neg h, fsFind_filter_keep]
  intro e'
  simp [Ne.symm h]

/-- Creating missing directories preserves every existing entry. -/
theorem mkdirParents_preserves (fs fs1 : FS) (d : PathC) (h : mkdirParents fs d = .ok fs1)
    (p : PathC) (e : Entry) (hp : fsFind fs p = some e) : fsFind fs1 p = some e := by
  unfold mkdirParents at h
  by_cases hany : ((pathPrefixes d).any fun q => fsIsFile fs q) = true
  · rw [if_pos hany] at h
    exact Except.noConfusion h
  · rw [if_neg hany] at h
    injection h with h'
    subst h'
    refine foldl_invariant (fun acc : FS => fsFind acc p = some e) _ _ _ hp ?_
    intro acc q _ hacc
    by_cases hex : fsExists acc q = true
    · rw [if_pos hex]
      exact hacc
    · rw [if_neg hex]
      have hqp : ¬ q = p := by
        intro hqp
        subst hqp
        unfold fsExists at hex
        rw [hacc] at hex
        exact hex rfl
      rw [fsFind_fsSet_ne acc p q _ hqp]
      exact hacc

/-- C8: `copy_file` never overwrites — an existing resolved destination
yields an error with the filesystem unchanged; a successful copy implies the
source existed as a non-directory and the resolved destination did not
exist; and in exactly that situation the bytes are copied there. -/
theorem copy_file_spec (env : ToolEnv) (fs : FS) (source destination : Str) :
    (fsExists fs (resolvedDest env fs source destination) = true →
      ∃ msg, copy_file env fs source destination = (mkErrDict msg, fs))
    ∧ (∀ v fs2, copy_file env fs source destination = (v, fs2) → resultOk v = some true →
        fsExists fs (env.normalize source) = true ∧
          fsIsDir fs (env.normalize source) = false ∧
          fsExists fs (resolvedDest env fs source destination) = false)
    ∧ (∀ d fs1, fsFind fs (env.normalize source) = some (.file d) →
        fsExists fs (resolvedDest env fs source destination) = false →
        mkdirParents fs (pathParent (resolvedDest env fs source destination)) = .ok fs1 →
        copy_file env fs source destination =
          (.dict [(okKey, .bool true),
                  ("source".toList, .str (env.showPath (env.normalize source))),
                  ("destination".toList,
                    .str (env.showPath (resolvedDest env fs source destination))),
                  ("size".toList, .int d.length),
                  ("message".toList, .str "File copied successfully".toList)],
           fsSet fs1 (resolvedDest env fs source destination) (.file d)) ∧
        fsFind (fsSet fs1 (resolvedDest env fs source destination) (.file d))
          (resolvedDest env fs source destination) = some (.file d)) := by
  refine ⟨?_, ?_, ?_⟩
  · intro h
    unfold copy_file
    dsimp only
    split_ifs with h1 h2
    · exact ⟨_, rfl⟩
    · exact ⟨_, rfl⟩
    · exact ⟨_, rfl⟩
  · intro v fs2 heq hok
    unfold copy_file at heq
    dsimp only at heq
    split_ifs at heq with h1 h2 h3
    · injection heq with hv _
      rw [← hv] at hok
      exact absurd hok (by simp [resultOk, mkErrDict, dlookup])
    · injection heq with hv _
      rw [← hv] at hok
      exact absurd hok (by simp [resultOk, mkErrDict, dlookup])
    · exact ⟨h1, Bool.eq_false_iff.mpr h2, Bool.eq_false_iff.mpr h3⟩
    · injection heq with hv _
      rw [← hv] at hok
      exact absurd hok (by simp [resultOk, mkErrDict, dlookup])
  · intro d fs1 hfd hne hmk
    have hex : fsExists fs (env.normalize source) = true := by
      unfold fsExists
      rw [hfd]
      rfl
    have hdir : fsIsDir fs (env.normalize source) = false := by
      unfold fsIsDir
      rw [hfd]
    unfold copy_file
    dsimp only
    rw [if_neg (not_not_intro hex), if_neg (by simp [hdir]), if_neg (by simp [hne]), hmk]
    dsimp only
    rw [mkdirParents_preserves fs fs1 _ hmk _ _ hfd]
    exact ⟨rfl, fsFind_fsSet_self _ _ _⟩

/-- C8 witness: copying onto an existing destination fails and leaves the
filesystem unchanged; copying to a fresh destination duplicates the bytes. -/
theorem copy_file_spec_witness :
    (∃ msg, copy_file trivEnv [(["s".toList], Entry.file [1]), (["d".toList], Entry.file [2])]
      ("s".toList) ("d".toList) =
        (mkErrDict msg, [(["s".toList], Entry.file [1]), (["d".toList], Entry.file [2])]))
    ∧ fsFind (fsSet [(["s".toList], Entry.file [1])] ["d".toList] (Entry.file [1]))
        ["d".toList] = some (Entry.file [1]) := by
  constructor
  · exact (copy_file_spec trivEnv [(["s".toList], Entry.file [1]), (["d".toList], Entry.file [2])]
      ("s".toList) ("d".toList)).1 (by decide)
  · exact ((copy_file_spec trivEnv [(["s".toList], Entry.file [1])]
      ("s".toList) ("d".toList)).2.2 [1] [(["s".toList], Entry.file [1])]
      rfl (by decide) rfl).2

/-- A Python slice `l[:m]` is a sublist of `l`. -/
theorem pyListSlice_sublist {α : Type} (l : List α) (m : Int) : (pyListSlice l m).Sublist l := by
  unfold pyListSlice
  split_ifs <;> exact List.take_sublist _ _

/-- For a non-negative bound, a slice keeps at most that many elements. -/
theorem pyListSlice_length_le {α : Type} (l : List α) (m : Int) (h : 0 ≤ m) :
    ((pyListSlice l m).length : Int) ≤ m := by
  unfold pyListSlice
  rw [if_pos h]
  have h2 : (l.take m.toNat).length ≤ m.toNat := by
    simp [List.length_take]
  omega

/-- Every collected candidate scored at or above the threshold. -/
theorem mem_findCandidates_score (env : ToolEnv) (query : Str) (thr : ℚ) (roots : List PathC)
    (c : Cand) (hc : c ∈ findCandidates env query thr roots) : thr ≤ c.score := by
  unfold findCandidates at hc
  rw [List.mem_flatten] at hc
  obtain ⟨l, hl, hcl⟩ := hc
  rw [List.mem_map] at hl
  obtain ⟨root, _, rfl⟩ := hl
  rw [List.mem_filterMap] at hcl
  obtain ⟨it, _, hit⟩ := hcl
  dsimp only at hit
  by_cases hthr : thr ≤ fuzzy_match_score query it.name
  · rw [if_pos hthr] at hit
    cases hit
    exact hthr
  · rw [if_neg hthr] at hit
    exact Option.noConfusion hit

/-- The returned rows are sorted by score, best first. -/
theorem findResults_sorted (env : ToolEnv) (query : Str) (max_results : Int) (thr : ℚ)
    (roots : List PathC) :
    List.Sorted (fun c d : Cand => d.score ≤ c.score)
      (findResults env query max_results thr roots) := by
  have hs : List.Sorted (fun c d : Cand => d.score ≤ c.score)
      (List.insertionSort (fun c d : Cand => d.score ≤ c.score)
        (findCandidates env query thr roots)) := by
    haveI : IsTotal Cand (fun c d : Cand => d.score ≤ c.score) :=
      ⟨fun a b => le_total b.score a.score⟩
    haveI : IsTrans Cand (fun c d : Cand => d.score ≤ c.score) :=
      ⟨fun _ _ _ hab hbc => le_trans hbc hab⟩
    exact List.sorted_insertionSort _ _
  exact List.Pairwise.sublist (pyListSlice_sublist _ _) hs

/-- C3: a blank name yields `ok=False` with an error; otherwise (when the
root lookups succeed) `find_item` returns `ok=True` carrying exactly the
scored rows, of which there are at most `max_results` (for a non-negative
bound), each scoring at least `fuzzy_threshold`, sorted by score in
non-increasing order. -/
theorem find_item_spec (env : ToolEnv) (name : Str) (max_results : Int) (thr : ℚ) :
    ((pyStrip name).isEmpty = true →
      find_item env name max_results thr = .ok (mkErrDict "empty name for find_item".toList))
    ∧ (∀ cwd home, (pyStrip name).isEmpty = false → env.cwd = .ok cwd → env.home = .ok home →
        find_item env name max_results thr =
          .ok (.dict [(okKey, .bool true), ("query".toList, .str (pyStrip name)),
            ("roots".toList, .list ((findRoots env cwd home).map (fun r => .str (env.showPath r)))),
            ("results".toList, .list ((findResults env (pyStrip name) max_results thr
              (findRoots env cwd home)).map candToVal)),
            ("fuzzy_threshold".toList, .num thr)]))
    ∧ (∀ query roots, 0 ≤ max_results →
        ((findResults env query max_results thr roots).length : Int) ≤ max_results)
    ∧ (∀ query roots c, c ∈ findResults env query max_results thr roots → thr ≤ c.score)
    ∧ (∀ query roots, List.Sorted (fun c d : Cand => d.score ≤ c.score)
        (findResults env query max_results thr roots)) := by
  refine ⟨?_, ?_, ?_, ?_, ?_⟩
  · intro h
    unfold find_item
    dsimp only
    rw [if_pos h]
  · intro cwd home hne hc hh
    unfold find_item
    dsimp only
    rw [if_neg (by simp [hne]), hc, hh]
  · intro query roots h
    unfold findResults
    exact pyListSlice_length_le _ _ h
  · intro query roots c hc
    unfold findResults at hc
    have h2 := (pyListSlice_sublist _ _).subset hc
    rw [List.mem_insertionSort] at h2
    exact mem_findCandidates_score env query thr roots c h2
  · intro query roots
    exact findResults_sorted env query max_results thr roots

/-- C3 witness: a whitespace-only name errors out; a fresh search returns at
most 20 rows. -/
theorem find_item_spec_witness :
    find_item trivEnv ("   ".toList) 20 (6 / 10) =
      .ok (mkErrDict "empty name for find_item".toList)
    ∧ ((findResults trivEnv ("x".toList) 20 (6 / 10) (findRoots trivEnv [] [])).length : Int)
        ≤ 20 := by
  constructor
  · exact (find_item_spec trivEnv ("   ".toList) 20 (6 / 10)).1 (by decide)
  · exact (find_item_spec trivEnv ("x".toList) 20 (6 / 10)).2.2.1 ("x".toList)
      (findRoots trivEnv [] []) (by norm_num)

theorem dlookup_cons (k' : Str) (v : Val) (rest : List (Str × Val)) (k : Str) :
    dlookup ((k', v) :: rest) k = if k' = k then some v else dlookup rest k := rfl

theorem goodResult_mkErrDict (msg : Str) : goodResult (mkErrDict msg) :=
  ⟨⟨false, rfl⟩, fun _ => ⟨msg, rfl⟩⟩

theorem goodResult_okTrue (rest : List (Str × Val)) :
    goodResult (.dict ((okKey, .bool true) :: rest)) :=
  ⟨⟨true, rfl⟩, fun h => Bool.noConfusion (Option.some.inj h)⟩

theorem run_shell_good (env : ToolEnv) (c : Str) : goodResult (run_shell env c) := by
  unfold run_shell
  repeat' split
  all_goals first | exact goodResult_mkErrDict _ | exact goodResult_okTrue _

theorem read_file_good (env : ToolEnv) (fs : FS) (path : Str) (mb : Int) :
    goodResult (read_file env fs path mb) := by
  unfold read_file
  dsimp only
  repeat' split
  all_goals first | exact goodResult_mkErrDict _ | exact goodResult_okTrue _

theorem write_file_good (env : ToolEnv) (fs : FS) (path content mode : Str) :
    goodResult (write_file env fs path content mode).1 := by
  unfold write_file
  dsimp only
  repeat' split
  all_goals try dsimp only
  all_goals first | exact goodResult_mkErrDict _ | exact goodResult_okTrue _

theorem copy_file_good (env : ToolEnv) (fs : FS) (s d : Str) :
    goodResult (copy_file env fs s d).1 := by
  unfold copy_file
  dsimp only
  repeat' split
  all_goals try dsimp only
  all_goals first | exact goodResult_mkErrDict _ | exact goodResult_okTrue _

theorem move_file_good (env : ToolEnv) (fs : FS) (s d : Str) :
    goodResult (move_file env fs s d).1 := by
  unfold move_file
  dsimp only
  repeat' split
  all_goals try dsimp only
  all_goals first | exact goodResult_mkErrDict _ | exact goodResult_okTrue _

theorem list_directory_good (env : ToolEnv) (fs : FS) (path : Str) (sh : Bool)
    (pat : Option Str) : goodResult (list_directory env fs path sh pat) := by
  unfold list_directory
  dsimp only
  split_ifs
  all_goals first | exact goodResult_mkErrDict _ | exact goodResult_okTrue _

theorem search_content_good (env : ToolEnv) (fs : FS) (q path : Str) (fp : Option Str)
    (mr : Int) (cs : Bool) : goodResult (search_content env fs q path fp mr cs) := by
  unfold search_content
  dsimp only
  repeat' split
  all_goals try dsimp only
  all_goals first | exact goodResult_mkErrDict _ | exact goodResult_okTrue _

theorem get_file_info_good (env : ToolEnv) (fs : FS) (path : Str) :
    goodResult (get_file_info env fs path) := by
  unfold get_file_info
  dsimp only
  repeat' split
  all_goals first | exact goodResult_mkErrDict _ | exact goodResult_okTrue _

theorem compare_files_good (env : ToolEnv) (fs : FS) (f1 f2 : Str) (cl : Int) :
    goodResult (compare_files env fs f1 f2 cl) := by
  unfold compare_files
  dsimp only
  repeat' split
  all_goals first | exact goodResult_mkErrDict _ | exact goodResult_okTrue _

theorem extract_archive_good (env : ToolEnv) (fs : FS) (ap : Str) (dst : Option Str) :
    goodResult (extract_archive env fs ap dst).1 := by
  unfold extract_archive
  dsimp only
  repeat' split
  all_goals try dsimp only
  all_goals first | exact goodResult_mkErrDict _ | exact goodResult_okTrue _

theorem summarizePdf_good (env : ToolEnv) (name fp : Str) (mb : Int) (ms : Val) (fc : Nat) :
    goodResult (summarizePdf env name fp mb ms fc) := by
  unfold summarizePdf
  dsimp only
  repeat' split
  all_goals try dsimp only
  all_goals first | exact goodResult_mkErrDict _ | exact goodResult_okTrue _

theorem summarizeText_good (env : ToolEnv) (name fp : Str) (mb : Int) (ms : Val) (fc : Nat) :
    goodResult (summarizeText env name fp mb ms fc) := by
  unfold summarizeText
  repeat' split
  all_goals first | exact goodResult_mkErrDict _ | exact goodResult_okTrue _

theorem find_item_good (env : ToolEnv) (name : Str) (mr : Int) (thr : ℚ)
    (cwd home : PathC) (hc : env.cwd = .ok cwd) (hh : env.home = .ok home) :
    ∃ d, find_item env name mr thr = .ok d ∧ goodResult d := by
  unfold find_item
  dsimp only
  by_cases h : (pyStrip name).isEmpty = true
  · rw [if_pos h]
    exact ⟨_, rfl, goodResult_mkErrDict _⟩
  · rw [if_neg h, hc, hh]
    dsimp only
    exact ⟨_, rfl, goodResult_okTrue _⟩



theorem find_item_empty_eq (env : ToolEnv) (name : Str) (mr : Int) (thr : ℚ)
    (h : (pyStrip name).isEmpty = true) :
    find_item env name mr thr = .ok (mkErrDict "empty name for find_item".toList) := by
  unfold find_item
  dsimp only
  rw [if_pos h]

theorem find_item_ok_eq (env : ToolEnv) (name : Str) (mr : Int) (thr : ℚ)
    (cwd home : PathC) (hne : (pyStrip name).isEmpty = false)
    (hc : env.cwd = .ok cwd) (hh : env.home = .ok home) :
    find_item env name mr thr =
      .ok (.dict [(okKey, .bool true), ("query".toList, .str (pyStrip name)),
        ("roots".toList, .list ((findRoots env cwd home).map (fun r => .str (env.showPath r)))),
        ("results".toList, .list ((findResults env (pyStrip name) mr thr
          (findRoots env cwd home)).map candToVal)),
        ("fuzzy_threshold".toList, .num thr)]) := by
  unfold find_item
  dsimp only
  rw [if_neg (by simp [hne]), hc, hh]

theorem vGetD_results (q : Str) (R : List Val) (res : List Val) (thr : ℚ) :
    vGetD (.dict [(okKey, .bool true), ("query".toList, .str q),
      ("roots".toList, .list R), ("results".toList, .list res),
      ("fuzzy_threshold".toList, .num thr)]) "results".toList (.list []) = .list res := rfl

theorem pyTruthy_head_true (rest : List (Str × Val)) :
    pyTruthy (vGetD (.dict ((okKey, .bool true) :: rest)) okKey .null) = true := rfl

theorem summarize_file_good (env : ToolEnv) (name : Str) (mb : Int)
    (cwd home : PathC) (hc : env.cwd = .ok cwd) (hh : env.home = .ok home) :
    ∃ d, summarize_file env name mb = .ok d ∧ goodResult d := by
  by_cases hq : (pyStrip name).isEmpty = true
  · unfold summarize_file
    rw [find_item_empty_eq env name 5 (6 / 10) hq]
    dsimp only
    rw [if_pos (show pyTruthy (vGetD (mkErrDict "empty name for find_item".toList)
      okKey Val.null) = false from rfl)]
    exact ⟨_, rfl, goodResult_mkErrDict _⟩
  · unfold summarize_file
    rw [find_item_ok_eq env name 5 (6 / 10) cwd home (Bool.eq_false_iff.mpr hq) hc hh]
    dsimp only
    rw [if_neg (by
      intro hcon
      rw [pyTruthy_head_true] at hcon
      exact Bool.noConfusion hcon)]
    rw [vGetD_results]
    dsimp only
    by_cases hrs : ((findResults env (pyStrip name) 5 (6 / 10)
        (findRoots env cwd home)).map candToVal).isEmpty = true
    · rw [if_pos hrs]
      exact ⟨_, rfl, goodResult_mkErrDict _⟩
    · rw [if_neg hrs]
      cases hfl : List.filter (fun r => !pyTruthy (vGetD r "is_dir".toList (Val.bool false)))
          ((findResults env (pyStrip name) 5 (6 / 10) (findRoots env cwd home)).map candToVal) with
      | nil =>
        exact ⟨_, rfl, goodResult_mkErrDict _⟩
      | cons best rest2 =>
        have hmem : best ∈ List.filter
            (fun r => !pyTruthy (vGetD r "is_dir".toList (Val.bool false)))
            ((findResults env (pyStrip name) 5 (6 / 10) (findRoots env cwd home)).map candToVal) := by
          rw [hfl]
          exact List.mem_cons_self _ _
        obtain ⟨c, _, hbest⟩ := List.mem_map.1 (List.mem_of_mem_filter hmem)
        rw [← hbest]
        dsimp only
        rw [show vGet (candToVal c) "path".toList = some (Val.str c.path) from rfl]
        dsimp only
        split_ifs
        all_goals
      first
        | exact ⟨_, rfl, goodResult_mkErrDict _⟩
        | exact ⟨_, rfl, summarizePdf_good _ _ _ _ _ _⟩
        | exact ⟨_, rfl, summarizeText_good _ _ _ _ _ _⟩

/-- C7 (amended): every tool returns a dictionary with a boolean `"ok"` and,
when `"ok"` is `False`, an error string; `find_item` and `summarize_file`
do so provided the unguarded `Path.cwd()`/`Path.home()` lookups succeed
(their failures propagate out of the tool). -/
theorem tool_results_wellformed :
    (∀ env c, goodResult (run_shell env c))
    ∧ (∀ env fs path mb, goodResult (read_file env fs path mb))
    ∧ (∀ env fs path content mode, goodResult (write_file env fs path content mode).1)
    ∧ (∀ env name mr thr cwd home, env.cwd = .ok cwd → env.home = .ok home →
        ∃ d, find_item env name mr thr = .ok d ∧ goodResult d)
    ∧ (∀ env name mb cwd home, env.cwd = .ok cwd → env.home = .ok home →
        ∃ d, summarize_file env name mb = .ok d ∧ goodResult d)
    ∧ (∀ env fs path sh pat, goodResult (list_directory env fs path sh pat))
    ∧ (∀ env fs q path fp mr cs, goodResult (search_content env fs q path fp mr cs))
    ∧ (∀ env fs path, goodResult (get_file_info env fs path))
    ∧ (∀ env fs s d, goodResult (copy_file env fs s d).1)
    ∧ (∀ env fs s d, goodResult (move_file env fs s d).1)
    ∧ (∀ env fs f1 f2 cl, goodResult (compare_files env fs f1 f2 cl))
    ∧ (∀ env fs ap dst, goodResult (extract_archive env fs ap dst).1) :=
  ⟨run_shell_good, read_file_good, write_file_good,
   fun env name mr thr cwd home hc hh => find_item_good env name mr thr cwd home hc hh,
   fun env name mb cwd home hc hh => summarize_file_good env name mb cwd home hc hh,
   list_directory_good, search_content_good, get_file_info_good,
   copy_file_good, move_file_good, compare_files_good, extract_archive_good⟩

/-- C7 witness: concrete successful `find_item` and `summarize_file` runs
returning well-formed dictionaries. -/
theorem tool_results_wellformed_witness :
    (∃ d, find_item trivEnv ("x".toList) 20 (6 / 10) = .ok d ∧ goodResult d)
    ∧ (∃ d, summarize_file trivEnv ("x".toList) 100 = .ok d ∧ goodResult d) :=
  ⟨tool_results_wellformed.2.2.2.1 trivEnv ("x".toList) 20 (6 / 10) [] [] rfl rfl,
   tool_results_wellformed.2.2.2.2.1 trivEnv ("x".toList) 100 [] [] rfl rfl⟩

/-- C7 counterexample: with the working directory unlinked, `Path.cwd()`
raises inside `find_item` outside any `try`, and the exception propagates to
the caller instead of an `ok=False` dictionary — `find_item` (and therefore
`summarize_file`, which calls it unguarded) does not catch every internal
failure. -/
theorem find_item_cwd_propagates :
    find_item badEnv ("x".toList) 20 (6 / 10) =
      .error (.err "FileNotFoundError: cwd".toList) := rfl


end OsAssist
